import Mathlib

/-!
Verification of the congress.gov scraper (files `congress_scraper.py`,
`scraper.py`, `url_test.py`).

The development shallowly embeds the scraper's data model and operations:

* the JSON query object built by `CongressScraper._build_search_url`, its
  compact JSON serialization (`json.dumps(..., separators=(',', ':'))`,
  which escapes to pure ASCII) and the percent-encoding applied by
  `urllib.parse.urlencode` (whose default quoting is `quote_plus`);
* a JSON reader and a percent-decoder, used to state the encode/decode
  round-trip of the `q` parameter;
* the DOM lookups of `LegislationScraper.parse_search_results` and
  `LegislationScraper.scrape_item` (HTML pages are embedded as the
  structured values the `BeautifulSoup` lookups extract from them);
* the job queue / pagination loop of `CongressScraper.scrape`, embedded as
  a fuel-indexed drain function over an environment that fixes the outcome
  of every network fetch.  Catchable Python exceptions (`except Exception`)
  degrade to empty results exactly where the code catches them; an
  uncatchable event at an `await` point (task cancellation is a
  `BaseException`, which `except Exception` does not catch) is modelled as
  an `Except.error` that propagates, so that session-lifecycle behaviour on
  the exceptional exit path can be stated.
-/

namespace Congress

/-! ## Small character/string helpers -/

/-- `str.strip()` on a Python string: whitespace removed from both ends. -/
def pyStrip (s : String) : String :=
  String.mk (((s.data.dropWhile Char.isWhitespace).reverse.dropWhile
    Char.isWhitespace).reverse)

/-- Decimal digit character (`0`–`9`). -/
def decDigit (d : Nat) : Char := Char.ofNat (48 + d)

/-- Lowercase hexadecimal digit, as used by `json.dumps` in `\uXXXX`. -/
def hexLower (d : Nat) : Char :=
  if d < 10 then Char.ofNat (48 + d) else Char.ofNat (87 + d)

/-- Uppercase hexadecimal digit, as used by percent-encoding `%XX`. -/
def hexUpper (d : Nat) : Char :=
  if d < 10 then Char.ofNat (48 + d) else Char.ofNat (55 + d)

/-- Recursion core of `natDecimal`; the fuel argument only bounds the
recursion depth (any fuel above the argument gives the same digits). -/
def natDecimalAux : Nat → Nat → List Char
  | 0, _ => []
  | fuel + 1, n =>
    if n < 10 then [decDigit n]
    else natDecimalAux fuel (n / 10) ++ [decDigit (n % 10)]

/-- Decimal notation of a natural number, the digits of Python `str(n)`. -/
def natDecimal (n : Nat) : List Char := natDecimalAux (n + 1) n

/-- Decimal notation of an integer: Python `str(n)` for an `int`. -/
def intDecimal (n : Int) : List Char :=
  if n < 0 then '-' :: natDecimal (-n).toNat else natDecimal n.toNat

/-! ## JSON values and `json.dumps(..., separators=(',', ':'))` -/

/-- JSON values as produced by the scraper's query objects. -/
inductive JVal where
  | str (s : String)
  | jint (n : Int)
  | arr (elems : List JVal)
  | obj (members : List (String × JVal))
deriving Repr

/-- Escape of one character inside a JSON string literal, following
`json.dumps` with its default `ensure_ascii=True`: the two-character
escapes of `ESCAPE_DCT`, raw printable ASCII otherwise, and `\uXXXX`
(lowercase hex, surrogate pairs beyond the BMP) for everything else. -/
def jsonEscapeChar (c : Char) : List Char :=
  if c = '"' then ['\\', '"']
  else if c = '\\' then ['\\', '\\']
  else if c = '\x08' then ['\\', 'b']
  else if c = '\x0c' then ['\\', 'f']
  else if c = '\n' then ['\\', 'n']
  else if c = '\r' then ['\\', 'r']
  else if c = '\t' then ['\\', 't']
  else if 0x20 ≤ c.toNat ∧ c.toNat ≤ 0x7e then [c]
  else if c.toNat < 0x10000 then
    '\\' :: 'u' :: [hexLower (c.toNat / 4096 % 16), hexLower (c.toNat / 256 % 16),
      hexLower (c.toNat / 16 % 16), hexLower (c.toNat % 16)]
  else
    let n := c.toNat - 0x10000
    let hi := 0xd800 + n / 0x400
    let lo := 0xdc00 + n % 0x400
    ('\\' :: 'u' :: [hexLower (hi / 4096 % 16), hexLower (hi / 256 % 16),
      hexLower (hi / 16 % 16), hexLower (hi % 16)]) ++
    ('\\' :: 'u' :: [hexLower (lo / 4096 % 16), hexLower (lo / 256 % 16),
      hexLower (lo / 16 % 16), hexLower (lo % 16)])

/-- Escaped body of a JSON string literal. -/
def escBody : List Char → List Char
  | [] => []
  | c :: cs => jsonEscapeChar c ++ escBody cs

/-- A full JSON string literal, quotes included. -/
def dumpStr (s : String) : List Char := '"' :: escBody s.data ++ ['"']

mutual

/-- `json.dumps(v, separators=(',', ':'))`: compact serialization. -/
def dumpVal : JVal → List Char
  | .str s => dumpStr s
  | .jint n => intDecimal n
  | .arr xs => '[' :: dumpElems xs ++ [']']
  | .obj kvs => '\x7b' :: dumpMembers kvs ++ ['\x7d']

/-- Comma-joined serialization of array elements. -/
def dumpElems : List JVal → List Char
  | [] => []
  | [x] => dumpVal x
  | x :: y :: ys => dumpVal x ++ ',' :: dumpElems (y :: ys)

/-- Comma-joined serialization of object members (`"key":value`). -/
def dumpMembers : List (String × JVal) → List Char
  | [] => []
  | [(k, v)] => dumpStr k ++ ':' :: dumpVal v
  | (k, v) :: m :: ms => dumpStr k ++ ':' :: dumpVal v ++ ',' :: dumpMembers (m :: ms)

end

/-! ## Percent-encoding (`urllib.parse.urlencode` / `quote_plus`) -/

/-- UTF-8 bytes of one character. -/
def utf8Bytes (c : Char) : List Nat :=
  let n := c.toNat
  if n < 0x80 then [n]
  else if n < 0x800 then [0xc0 + n / 64, 0x80 + n % 64]
  else if n < 0x10000 then [0xe0 + n / 4096, 0x80 + n / 64 % 64, 0x80 + n % 64]
  else [0xf0 + n / 0x40000, 0x80 + n / 4096 % 64, 0x80 + n / 64 % 64, 0x80 + n % 64]

/-- Bytes that `quote_plus` leaves unencoded (`urllib`'s always-safe set:
ASCII letters, digits, `_`, `.`, `-`, `~`). -/
def safeByte (b : Nat) : Bool :=
  (65 ≤ b && b ≤ 90) || (97 ≤ b && b ≤ 122) || (48 ≤ b && b ≤ 57) ||
  b = 95 || b = 46 || b = 45 || b = 126

/-- `quote_plus` encoding of one byte: space becomes `+`, safe bytes stay,
everything else becomes `%XX` with uppercase hex. -/
def quoteByte (b : Nat) : List Char :=
  if b = 32 then ['+']
  else if safeByte b then [Char.ofNat b]
  else ['%', hexUpper (b / 16 % 16), hexUpper (b % 16)]

/-- `quote_plus` encoding of a byte sequence. -/
def quoteBytes : List Nat → List Char
  | [] => []
  | b :: bs => quoteByte b ++ quoteBytes bs

/-- `urllib.parse.quote_plus`: UTF-8 encode, then percent-encode bytewise. -/
def quotePlus : List Char → List Char
  | [] => []
  | c :: cs => quoteBytes (utf8Bytes c) ++ quotePlus cs

/-- Value of a hexadecimal digit character, upper- or lowercase. -/
def hexVal? (c : Char) : Option Nat :=
  if 48 ≤ c.toNat ∧ c.toNat ≤ 57 then some (c.toNat - 48)
  else if 97 ≤ c.toNat ∧ c.toNat ≤ 102 then some (c.toNat - 87)
  else if 65 ≤ c.toNat ∧ c.toNat ≤ 70 then some (c.toNat - 55)
  else none

/-- First stage of `urllib.parse.unquote_plus`: every `+` becomes a
space (`string.replace('+', ' ')` runs before percent-decoding). -/
def plusToSpace (l : List Char) : List Char :=
  l.map (fun c => if c = '+' then ' ' else c)

/-- Percent-decoding on ASCII data (the only data arising here: compact
`json.dumps` output is pure ASCII, so every decoded byte is below `0x80`
and UTF-8 decoding is the identity): a valid `%XX` triple becomes the
byte `XX`, a malformed `%` is kept literally. -/
def pctDecode : List Char → List Char
  | [] => []
  | '%' :: h1 :: h2 :: rest =>
    match hexVal? h1, hexVal? h2 with
    | some a, some b => Char.ofNat (16 * a + b) :: pctDecode rest
    | _, _ => '%' :: pctDecode (h1 :: h2 :: rest)
  | c :: rest => c :: pctDecode rest

/-- `urllib.parse.unquote_plus` (ASCII case): plus-to-space, then
percent-decode, as the Python implementation composes them. -/
def unquotePlus (l : List Char) : List Char := pctDecode (plusToSpace l)

/-! ## `CongressScraper._build_search_url` -/

/-- The `congress` argument of `_build_search_url`: a Python `int` or `str`
(the annotation is `int | str`; `"all"` is the sentinel string). -/
inductive PyCongress where
  | int (n : Int)
  | str (s : String)

/-- `congress if isinstance(congress, str) else str(congress)`. -/
def congressVal : PyCongress → String
  | .int n => String.mk (intDecimal n)
  | .str s => s

/-- The query object of `_build_search_url`: `congress` as its string form,
`source` wrapped in a one-element array, and — only when `page > 1` — the
members `pageSize = 100` and `page`.  Member order is Python dict insertion
order. -/
def buildQuery (congress : PyCongress) (source : String) (page : Int) :
    List (String × JVal) :=
  [("congress", JVal.str (congressVal congress)),
   ("source", JVal.arr [JVal.str source])] ++
  (if page > 1 then [("pageSize", JVal.jint 100), ("page", JVal.jint page)] else [])

/-- `self.base_url` of `CongressScraper`. -/
def base_url : String := "https://www.congress.gov/search"

/-- Serialized characters of the `q` query value before percent-encoding. -/
def qJson (congress : PyCongress) (source : String) (page : Int) : List Char :=
  dumpVal (JVal.obj (buildQuery congress source page))

/-- `CongressScraper._build_search_url`: base URL, `?`, and
`urlencode({"q": json.dumps(query, separators=(',', ':'))})`. -/
def build_search_url (congress : PyCongress) (source : String) (page : Int) :
    String :=
  String.mk (base_url.data ++ "?q=".data ++ quotePlus (qJson congress source page))

/-! ## JSON reading (the decoding direction of the round-trip) -/

/-- One-character escapes accepted inside a JSON string (`json.loads`'s
`BACKSLASH` table). -/
def simpleEsc (e : Char) : Option Char :=
  if e = '"' then some '"'
  else if e = '\\' then some '\\'
  else if e = '/' then some '/'
  else if e = 'b' then some '\x08'
  else if e = 'f' then some '\x0c'
  else if e = 'n' then some '\n'
  else if e = 'r' then some '\r'
  else if e = 't' then some '\t'
  else none

/-- Body of a JSON string literal after the opening quote: collects
characters up to the closing quote, decoding backslash escapes, `\uXXXX`
units and surrogate pairs.  Returns the decoded characters and the input
remaining after the closing quote. -/
def parseStrBody : List Char → Option (List Char × List Char)
  | [] => none
  | '"' :: rest => some ([], rest)
  | '\\' :: 'u' :: a :: b :: c :: d :: rest =>
    match hexVal? a, hexVal? b, hexVal? c, hexVal? d with
    | some ha, some hb, some hc, some hd =>
      let n := 4096 * ha + 256 * hb + 16 * hc + hd
      if 0xd800 ≤ n ∧ n < 0xdc00 then
        match rest with
        | '\\' :: 'u' :: a2 :: b2 :: c2 :: d2 :: rest2 =>
          match hexVal? a2, hexVal? b2, hexVal? c2, hexVal? d2 with
          | some ha2, some hb2, some hc2, some hd2 =>
            let m := 4096 * ha2 + 256 * hb2 + 16 * hc2 + hd2
            if 0xdc00 ≤ m ∧ m < 0xe000 then
              (parseStrBody rest2).map (fun p =>
                (Char.ofNat (0x10000 + (n - 0xd800) * 0x400 + (m - 0xdc00)) :: p.1,
                 p.2))
            else none
          | _, _, _, _ => none
        | _ => none
      else if 0xdc00 ≤ n ∧ n < 0xe000 then none
      else (parseStrBody rest).map (fun p => (Char.ofNat n :: p.1, p.2))
    | _, _, _, _ => none
  | '\\' :: e :: rest =>
    (simpleEsc e).bind (fun ch => (parseStrBody rest).map (fun p => (ch :: p.1, p.2)))
  | ['\\'] => none
  | c :: rest => (parseStrBody rest).map (fun p => (c :: p.1, p.2))

/-- Digit predicate used by the number scanner. -/
def isDigitChar (c : Char) : Bool := 48 ≤ c.toNat && c.toNat ≤ 57

/-- Numeric value of a digit string. -/
def digitsVal (l : List Char) : Nat :=
  l.foldl (fun acc c => 10 * acc + (c.toNat - 48)) 0

/-- Greedy scan of a decimal natural number. -/
def parseNat (l : List Char) : Option (Nat × List Char) :=
  let ds := l.takeWhile isDigitChar
  if ds.isEmpty then none
  else some (digitsVal ds, l.dropWhile isDigitChar)

mutual

/-- Reader for the JSON fragment the scraper serializes (strings,
integers, arrays, objects; the compact output contains no whitespace).
Fuel bounds the nesting recursion. -/
def parseVal : Nat → List Char → Option (JVal × List Char)
  | 0, _ => none
  | _ + 1, [] => none
  | fuel + 1, c :: rest =>
    if c = '"' then
      (parseStrBody rest).map (fun p => (JVal.str (String.mk p.1), p.2))
    else if c = '[' then
      match rest with
      | ']' :: r2 => some (JVal.arr [], r2)
      | _ => (parseArrItems fuel rest).map (fun p => (JVal.arr p.1, p.2))
    else if c = '\x7b' then
      match rest with
      | '\x7d' :: r2 => some (JVal.obj [], r2)
      | _ => (parseObjItems fuel rest).map (fun p => (JVal.obj p.1, p.2))
    else if c = '-' then
      (parseNat rest).map (fun p => (JVal.jint (-(p.1 : Int)), p.2))
    else if isDigitChar c then
      (parseNat (c :: rest)).map (fun p => (JVal.jint (p.1 : Int), p.2))
    else none

/-- Comma-separated array elements up to the closing bracket. -/
def parseArrItems : Nat → List Char → Option (List JVal × List Char)
  | 0, _ => none
  | fuel + 1, l =>
    match parseVal fuel l with
    | some (v, ',' :: r) => (parseArrItems fuel r).map (fun p => (v :: p.1, p.2))
    | some (v, ']' :: r) => some ([v], r)
    | _ => none

/-- Comma-separated `"key":value` members up to the closing brace. -/
def parseObjItems : Nat → List Char → Option (List (String × JVal) × List Char)
  | 0, _ => none
  | fuel + 1, l =>
    match l with
    | '"' :: r1 =>
      match parseStrBody r1 with
      | some (k, ':' :: r2) =>
        match parseVal fuel r2 with
        | some (v, ',' :: r3) =>
          (parseObjItems fuel r3).map (fun p => ((String.mk k, v) :: p.1, p.2))
        | some (v, '\x7d' :: r3) => some ([(String.mk k, v)], r3)
        | _ => none
      | _ => none
    | _ => none

end

/-- JSON decoding of a whole input: the reader must consume everything. -/
def jsonRead (l : List Char) : Option JVal :=
  match parseVal (l.length + 1) l with
  | some (v, []) => some v
  | _ => none

/-! ## Python dictionaries (the scraper's record values) -/

/-- Python values stored in the scraper's record dictionaries. -/
inductive PyVal where
  | pstr (s : String)
  | pnone
  | plist (xs : List PyVal)
  | pdict (kvs : List (String × PyVal))
deriving Repr

/-- A Python dict with string keys, as an insertion-ordered list. -/
abbrev Dict := List (String × PyVal)

/-- `d[k] = v` on a Python dict: an existing key keeps its position and
gets the new value, a new key is appended. -/
def dictSet (d : Dict) (k : String) (v : PyVal) : Dict :=
  if d.any (fun kv => kv.1 = k) then
    d.map (fun kv => if kv.1 = k then (k, v) else kv)
  else d ++ [(k, v)]

/-- `d.update(e)` on Python dicts: set each of `e`'s entries in order. -/
def dictUpdate (d : Dict) (e : Dict) : Dict :=
  e.foldl (fun acc kv => dictSet acc kv.1 kv.2) d

/-- String stored under `k`, as used for `item['url']` (the parse step
always stores a string there, so the fallback is unreachable). -/
def getStr (d : Dict) (k : String) : String :=
  match d.lookup k with
  | some (.pstr s) => s
  | _ => ""

/-! ## Pages as the structured values the DOM lookups extract

`BeautifulSoup` is an external collaborator: a fetched HTML page is
embedded as the list of `li.expanded` items it contains, and each item as
the outcomes of the element lookups `parse_search_results` performs on
it.  `none` means the element (or attribute) is absent, in which case the
code either substitutes a placeholder, skips the item (`continue`), or
hits a caught exception.  Text fields hold the raw element text; the
embedding applies `pyStrip` exactly where the code calls `.strip()`. -/

/-- The `a` element inside `h2.item-name`: its text and optional `href`
attribute (a missing `href` raises `KeyError` in `link['href']`). -/
structure LinkElem where
  text : String
  href : Option String

/-- The `h2.item-name` element: its optional `a` child (a missing child
makes `link.text` raise `AttributeError`). -/
structure TitleElem where
  link : Option LinkElem

/-- One `li.expanded` search listing item. -/
structure SearchItem where
  titleElem : Option TitleElem
  description : Option String
  statusElem : Option String
  sponsorElem : Option String

/-- A search page: the `li.expanded` items found in its HTML. -/
abbrev SearchPage := List SearchItem

/-- `LegislationScraper.parse_search_results` on one item: skips the item
when `h2.item-name` is absent (`continue`), or when the `a` child or its
`href` is absent (caught exception, `continue`); otherwise builds the
record with placeholder strings for the absent optional fields.  `now` is
the `datetime.now().isoformat()` timestamp. -/
def parseItem (now : String) (item : SearchItem) : Option Dict :=
  match item.titleElem with
  | none => none
  | some te =>
    match te.link with
    | none => none
    | some link =>
      match link.href with
      | none => none
      | some href =>
        some [("bill_number", .pstr (pyStrip link.text)),
              ("title", .pstr (match item.description with
                | some d => pyStrip d
                | none => "No title available")),
              ("status", .pstr (match item.statusElem with
                | some st => pyStrip st
                | none => "Status unknown")),
              ("sponsor", .pstr (match item.sponsorElem with
                | some sp => pyStrip sp
                | none => "No sponsor info")),
              ("url", .pstr ("https://www.congress.gov" ++ href)),
              ("scraped_at", .pstr now)]

/-- `LegislationScraper.parse_search_results`: one record per listing
item, skipped items dropped. -/
def parse_search_results (now : String) (page : SearchPage) : List Dict :=
  page.filterMap (parseItem now)

/-- A detail page, as the values `scrape_item`'s extraction helpers look
up: `div.committees` / `div.cosponsors` as the texts of their `li`
children when the div exists, `table.actions` as the `td` texts of each
`tr` row (header row included), and the two optional date spans. -/
structure DetailPage where
  committeesDiv : Option (List String)
  actionsRows : Option (List (List String))
  cosponsorsDiv : Option (List String)
  lastAction : Option String
  introducedDate : Option String

/-- `LegislationScraper._extract_committees`. -/
def extract_committees (pg : DetailPage) : List String :=
  match pg.committeesDiv with
  | none => []
  | some items => items.map pyStrip

/-- `LegislationScraper._extract_actions`: skip the header row, keep rows
with at least two cells as `{date, action}` pairs. -/
def extract_actions (pg : DetailPage) : List (String × String) :=
  match pg.actionsRows with
  | none => []
  | some rows =>
    (rows.drop 1).filterMap (fun cols =>
      match cols with
      | d :: a :: _ => some (pyStrip d, pyStrip a)
      | _ => none)

/-- `LegislationScraper._extract_cosponsors`. -/
def extract_cosponsors (pg : DetailPage) : List String :=
  match pg.cosponsorsDiv with
  | none => []
  | some items => items.map pyStrip

/-- `LegislationScraper._extract_last_action_date`. -/
def extract_last_action_date (pg : DetailPage) : Option String :=
  pg.lastAction.map pyStrip

/-- `LegislationScraper._extract_introduced_date`. -/
def extract_introduced_date (pg : DetailPage) : Option String :=
  pg.introducedDate.map pyStrip

/-- A Python `Optional[str]` as a stored dict value. -/
def optVal : Option String → PyVal
  | none => .pnone
  | some s => .pstr s

/-- The details dict `scrape_item` builds on a successful detail fetch;
`now` is the `datetime.now().isoformat()` timestamp of the detail scrape. -/
def detailsDict (url : String) (now : String) (pg : DetailPage) : Dict :=
  [("url", .pstr url),
   ("committees", .plist ((extract_committees pg).map .pstr)),
   ("actions", .plist ((extract_actions pg).map (fun p =>
      .pdict [("date", .pstr p.1), ("action", .pstr p.2)]))),
   ("cosponsors", .plist ((extract_cosponsors pg).map .pstr)),
   ("last_action_date", optVal (extract_last_action_date pg)),
   ("introduced_date", optVal (extract_introduced_date pg)),
   ("scraped_at", .pstr now)]

/-! ## The fetch environment and the orchestrator -/

/-- Outcome of awaiting a search-page `GET`: a page, a catchable
exception (network error — an `Exception`, caught by the code's
`except Exception`), or an uncatchable `BaseException` such as task
cancellation, which `except Exception` does not catch. -/
inductive FetchOutcome where
  | ok (page : SearchPage)
  | err
  | cancelled

/-- Outcome of awaiting a detail-page `GET`. -/
inductive DetailOutcome where
  | ok (page : DetailPage)
  | err
  | cancelled

/-- The ambient effects of one run: what each URL fetch yields and what
`datetime.now()` reads at the search-parse and detail-scrape call sites. -/
structure Env where
  fetch : String → FetchOutcome
  detail : String → DetailOutcome
  searchNow : String
  detailNow : String → String

/-- `LegislationScraper.scrape_item`: fetch the detail page and build the
details dict; a caught exception returns the empty dict; an uncatchable
exception propagates (`Except.error`). -/
def scrape_item (env : Env) (url : String) : Except Unit Dict :=
  match env.detail url with
  | .cancelled => .error ()
  | .err => .ok []
  | .ok pg => .ok (detailsDict url (env.detailNow url) pg)

/-- The per-item enrichment loop of `_scrape_page`: for each parsed item,
`details = scrape_item(item['url'])`, `item.update(details)`, append. -/
def detailLoop (env : Env) : List Dict → Except Unit (List Dict)
  | [] => .ok []
  | item :: rest => do
    let details ← scrape_item env (getStr item "url")
    let tail ← detailLoop env rest
    .ok (dictUpdate item details :: tail)

/-- `ScrapingJob` (`@dataclass`, `page: int = 1`). -/
structure ScrapingJob where
  congress : Int
  source : String
  page : Int := 1
deriving DecidableEq, Repr

/-- `self.scrapers` after `_init_session`: only `legislation` is
registered, other tags have no scraper. -/
def scraperFor (source : String) : Option Unit :=
  if source = "legislation" then some () else none

/-- `CongressScraper._scrape_page`: build the URL, fetch, look up the
source's scraper, parse the search results and enrich each item.  A
caught exception anywhere inside the `try` (fetch error) or a missing
registry entry yields `[]`; an uncatchable exception propagates. -/
def scrape_page (env : Env) (job : ScrapingJob) : Except Unit (List Dict) :=
  let url := build_search_url (.int job.congress) job.source job.page
  match env.fetch url with
  | .cancelled => .error ()
  | .err => .ok []
  | .ok pg =>
    match scraperFor job.source with
    | none => .ok []
    | some _ => detailLoop env (parse_search_results env.searchNow pg)

/-- The queue-draining loop of `CongressScraper.scrape`.  The queue is
FIFO (`queue.Queue`): jobs are taken from the front and continuations
appended at the back.  A job's results extend the accumulator and, when
non-empty, enqueue the next page for the same (congress, source).  Fuel
bounds the number of iterations: `.ok none` means the fuel ran out with
work left (the Python loop has no built-in bound and simply keeps
running).  The list of processed jobs is returned alongside the
accumulated results. -/
def drainLoop (env : Env) :
    Nat → List ScrapingJob → List ScrapingJob → List Dict →
    Except Unit (Option (List ScrapingJob × List Dict))
  | _, [], done, acc => .ok (some (done, acc))
  | 0, _ :: _, _, _ => .ok none
  | fuel + 1, job :: q, done, acc =>
    match scrape_page env job with
    | .error e => .error e
    | .ok items =>
      drainLoop env fuel
        (if items.isEmpty then q
         else q ++ [{ congress := job.congress, source := job.source,
                      page := job.page + 1 }])
        (done ++ [job]) (acc ++ items)

/-- `range(start, end_ - 1, -1)`: descending from `start` down to `end_`
inclusive; empty when `start < end_`. -/
def rangeDown (start stop : Int) : List Int :=
  (List.range (start - stop).toNat).map (fun (i : Nat) => start - (i : Int))

/-- The initial job population of `scrape`: for each congress in
`range(start_congress, end_congress - 1, -1)`, for each source, a page-1
job. -/
def initialJobs (start_congress end_congress : Int) (sources : List String) :
    List ScrapingJob :=
  (rangeDown start_congress (end_congress - 1)).flatMap (fun c =>
    sources.map (fun s => { congress := c, source := s, page := 1 }))

/-- Session lifecycle events of one run. -/
inductive SessionEvent where
  | open_
  | close
deriving DecidableEq, Repr

/-- Result of one `scrape` run: the drain outcome and the session events
that occurred, in order. -/
structure ScrapeResult where
  result : Except Unit (Option (List Dict))
  sessionEvents : List SessionEvent

/-- `CongressScraper.scrape`: open the session (`_init_session`), build
the initial queue, drain it, and close the session.  The close call is
the plain statement after the loop — it runs only when the loop finishes
normally; an exception propagating out of the loop skips it (there is no
`try/finally` or `async with` around the session), and a loop that never
terminates never reaches it. -/
def scrape (env : Env) (fuel : Nat) (start_congress end_congress : Int)
    (sources : List String) : ScrapeResult :=
  match drainLoop env fuel (initialJobs start_congress end_congress sources)
      [] [] with
  | .ok (some (_, acc)) =>
    { result := .ok (some acc), sessionEvents := [.open_, .close] }
  | .ok none => { result := .ok none, sessionEvents := [.open_] }
  | .error e => { result := .error e, sessionEvents := [.open_] }

/-- Results of the page-`p` job of `(c, s)` under `env` (empty when the
job errs). -/
def pageItems (env : Env) (c : Int) (s : String) (p : Int) : List Dict :=
  match scrape_page env { congress := c, source := s, page := p } with
  | .ok items => items
  | .error _ => []

/-! ## Helper lemmas: characters and hex digits -/

theorem char_toNat_ofNat {n : Nat} (h : n.isValidChar) :
    (Char.ofNat n).toNat = n := by
  rw [Char.ofNat, dif_pos h]
  rfl

theorem nat_isValidChar_of_lt {n : Nat} (h : n < 0xd800) : n.isValidChar :=
  Or.inl h

theorem char_valid_ranges (c : Char) :
    c.toNat < 0xd800 ∨ (0xdfff < c.toNat ∧ c.toNat < 0x110000) := c.valid

theorem char_eq_of_toNat {c d : Char} (h : c.toNat = d.toNat) : c = d := by
  have := congrArg Char.ofNat h
  rwa [Char.ofNat_toNat, Char.ofNat_toNat] at this

theorem hexVal?_hexLower : ∀ d < 16, hexVal? (hexLower d) = some d := by decide

theorem hexVal?_hexUpper : ∀ d < 16, hexVal? (hexUpper d) = some d := by decide

/-! ## Helper lemmas: percent-encoding round-trip -/

theorem pctDecode_cons {c : Char} (l : List Char) (h : c ≠ '%') :
    pctDecode (c :: l) = c :: pctDecode l := by
  rw [pctDecode.eq_def]
  split <;> simp_all

theorem pctDecode_pct {h1 h2 : Char} {a b : Nat} (l : List Char)
    (ha : hexVal? h1 = some a) (hb : hexVal? h2 = some b) :
    pctDecode ('%' :: h1 :: h2 :: l) = Char.ofNat (16 * a + b) :: pctDecode l := by
  rw [pctDecode.eq_def]
  split
  · simp_all
  · simp_all
  · rename_i hno heq
    rw [List.cons_eq_cons] at heq
    exact absurd heq.2.symm (hno h1 h2 l heq.1.symm)

theorem hexUpper_ne_plus : ∀ d < 16, hexUpper d ≠ '+' := by decide

theorem decode_quoteByte {n : Nat} (hn : n < 0x80) (r : List Char) :
    pctDecode (plusToSpace (quoteByte n) ++ r) = Char.ofNat n :: pctDecode r := by
  have hvalid : n.isValidChar := nat_isValidChar_of_lt (by omega)
  unfold quoteByte
  by_cases h32 : n = 32
  · subst h32
    rw [if_pos rfl]
    have h1 : plusToSpace ['+'] = [' '] := by decide
    rw [h1]
    rw [show ([' '] ++ r) = ' ' :: r from rfl]
    rw [pctDecode_cons r (by decide)]
  · rw [if_neg h32]
    by_cases hsafe : safeByte n
    · rw [if_pos hsafe]
      have hne43 : n ≠ 43 := by
        intro h
        subst h
        exact absurd hsafe (by decide)
      have hplus : Char.ofNat n ≠ '+' := by
        intro h
        apply hne43
        have := congrArg Char.toNat h
        rwa [char_toNat_ofNat hvalid] at this
      have hpct : Char.ofNat n ≠ '%' := by
        intro h
        have := congrArg Char.toNat h
        rw [char_toNat_ofNat hvalid] at this
        subst this
        exact absurd hsafe (by decide)
      have : plusToSpace [Char.ofNat n] = [Char.ofNat n] := by
        simp [plusToSpace, hplus]
      rw [this]
      rw [show ([Char.ofNat n] ++ r) = Char.ofNat n :: r from rfl]
      rw [pctDecode_cons r hpct]
    · rw [if_neg hsafe]
      have hd1 : n / 16 % 16 < 16 := Nat.mod_lt _ (by omega)
      have hd2 : n % 16 < 16 := Nat.mod_lt _ (by omega)
      have : plusToSpace ['%', hexUpper (n / 16 % 16), hexUpper (n % 16)] =
          ['%', hexUpper (n / 16 % 16), hexUpper (n % 16)] := by
        simp [plusToSpace, hexUpper_ne_plus _ hd1, hexUpper_ne_plus _ hd2]
      rw [this]
      rw [show (['%', hexUpper (n / 16 % 16), hexUpper (n % 16)] ++ r) =
        '%' :: hexUpper (n / 16 % 16) :: hexUpper (n % 16) :: r from rfl]
      rw [pctDecode_pct r (hexVal?_hexUpper _ hd1) (hexVal?_hexUpper _ hd2)]
      congr 1
      congr 1
      omega

theorem unquote_quote {l : List Char} (h : ∀ c ∈ l, c.toNat < 0x80) :
    unquotePlus (quotePlus l) = l := by
  induction l with
  | nil => rfl
  | cons c cs ih =>
    have hc : c.toNat < 0x80 := h c (List.mem_cons_self c cs)
    have hcs : ∀ x ∈ cs, x.toNat < 0x80 := fun x hx => h x (List.mem_cons_of_mem c hx)
    have hbytes : utf8Bytes c = [c.toNat] := by
      unfold utf8Bytes
      rw [if_pos hc]
    rw [show quotePlus (c :: cs) = quoteBytes (utf8Bytes c) ++ quotePlus cs from rfl]
    rw [hbytes]
    rw [show quoteBytes [c.toNat] = quoteByte c.toNat ++ [] from rfl, List.append_nil]
    have happ : plusToSpace (quoteByte c.toNat ++ quotePlus cs) =
        plusToSpace (quoteByte c.toNat) ++ plusToSpace (quotePlus cs) :=
      List.map_append _ _ _
    unfold unquotePlus at ih ⊢
    rw [happ]
    rw [decode_quoteByte hc (plusToSpace (quotePlus cs))]
    rw [Char.ofNat_toNat]
    exact congrArg (c :: ·) (ih hcs)

/-! ## Helper lemmas: JSON string escaping round-trip -/

theorem parseStrBody_raw (c : Char) (h1 : c ≠ '"') (h2 : c ≠ '\\') (l : List Char) :
    parseStrBody (c :: l) = (parseStrBody l).map (fun p => (c :: p.1, p.2)) := by
  rw [parseStrBody.eq_def]
  split <;> simp_all

theorem parseStrBody_u {t : Nat} (hval : t.isValidChar) (hbmp : t < 0x10000)
    (l : List Char) :
    parseStrBody ('\\' :: 'u' :: hexLower (t / 4096 % 16) :: hexLower (t / 256 % 16)
      :: hexLower (t / 16 % 16) :: hexLower (t % 16) :: l) =
    (parseStrBody l).map (fun p => (Char.ofNat t :: p.1, p.2)) := by
  rw [parseStrBody.eq_3]
  rw [hexVal?_hexLower _ (Nat.mod_lt _ (by omega)),
      hexVal?_hexLower _ (Nat.mod_lt _ (by omega)),
      hexVal?_hexLower _ (Nat.mod_lt _ (by omega)),
      hexVal?_hexLower _ (Nat.mod_lt _ (by omega))]
  have hrec : 4096 * (t / 4096 % 16) + 256 * (t / 256 % 16) + 16 * (t / 16 % 16) +
      t % 16 = t := by omega
  have hns : t < 0xd800 ∨ 0xdfff < t := by
    rcases hval with h | h
    · exact Or.inl h
    · exact Or.inr h.1
  split
  case h_1 n1 n2 n3 n4 e1 e2 e3 e4 =>
    injection e1 with f1
    injection e2 with f2
    injection e3 with f3
    injection e4 with f4
    subst f1 f2 f3 f4
    dsimp only []
    rw [hrec]
    rw [if_neg (by omega), if_neg (by omega)]
  case h_2 hno =>
    exact absurd rfl (hno (t / 4096 % 16) (t / 256 % 16) (t / 16 % 16) (t % 16)
      rfl rfl rfl)

theorem parseStrBody_surr {t hi lo : Nat} (h1 : 0x10000 ≤ t) (h2 : t < 0x110000)
    (hhi : hi = 0xd800 + (t - 0x10000) / 0x400)
    (hlo : lo = 0xdc00 + (t - 0x10000) % 0x400) (l : List Char) :
    parseStrBody ('\\' :: 'u' :: hexLower (hi / 4096 % 16) :: hexLower (hi / 256 % 16)
      :: hexLower (hi / 16 % 16) :: hexLower (hi % 16)
      :: '\\' :: 'u' :: hexLower (lo / 4096 % 16) :: hexLower (lo / 256 % 16)
      :: hexLower (lo / 16 % 16) :: hexLower (lo % 16) :: l) =
    (parseStrBody l).map (fun p => (Char.ofNat t :: p.1, p.2)) := by
  rw [parseStrBody.eq_3]
  rw [hexVal?_hexLower _ (Nat.mod_lt _ (by omega)),
      hexVal?_hexLower _ (Nat.mod_lt _ (by omega)),
      hexVal?_hexLower _ (Nat.mod_lt _ (by omega)),
      hexVal?_hexLower _ (Nat.mod_lt _ (by omega))]
  split
  case h_2 hno =>
    exact absurd rfl (hno (hi / 4096 % 16) (hi / 256 % 16) (hi / 16 % 16) (hi % 16)
      rfl rfl rfl)
  case h_1 n1 n2 n3 n4 e1 e2 e3 e4 =>
    injection e1 with f1
    injection e2 with f2
    injection e3 with f3
    injection e4 with f4
    subst f1 f2 f3 f4
    dsimp only []
    have hrec1 : 4096 * (hi / 4096 % 16) + 256 * (hi / 256 % 16) +
        16 * (hi / 16 % 16) + hi % 16 = hi := by omega
    rw [hrec1]
    rw [if_pos (by omega : 0xd800 ≤ hi ∧ hi < 0xdc00)]
    split
    case h_2 hno =>
      exact absurd rfl (hno (hexLower (lo / 4096 % 16))
        (hexLower (lo / 256 % 16)) (hexLower (lo / 16 % 16)) (hexLower (lo % 16)) l)
    case h_1 a2 b2 c2 d2 rest2 heq2 =>
      simp only [List.cons_eq_cons, true_and] at heq2
      obtain ⟨g1, g2, g3, g4, g5⟩ := heq2
      subst g1 g2 g3 g4 g5
      rw [hexVal?_hexLower _ (Nat.mod_lt _ (by omega)),
          hexVal?_hexLower _ (Nat.mod_lt _ (by omega)),
          hexVal?_hexLower _ (Nat.mod_lt _ (by omega)),
          hexVal?_hexLower _ (Nat.mod_lt _ (by omega))]
      split
      case h_2 hno2 =>
        exact absurd rfl (hno2 (lo / 4096 % 16) (lo / 256 % 16) (lo / 16 % 16)
          (lo % 16) rfl rfl rfl)
      case h_1 m1 m2 m3 m4 e1' e2' e3' e4' =>
        injection e1' with f1'
        injection e2' with f2'
        injection e3' with f3'
        injection e4' with f4'
        subst f1' f2' f3' f4'
        have hrec2 : 4096 * (lo / 4096 % 16) + 256 * (lo / 256 % 16) +
            16 * (lo / 16 % 16) + lo % 16 = lo := by omega
        rw [hrec2]
        rw [if_pos (by omega : 0xdc00 ≤ lo ∧ lo < 0xe000)]
        have harith : 0x10000 + (hi - 0xd800) * 0x400 + (lo - 0xdc00) = t := by omega
        rw [harith]

theorem parseStrBody_escChar (c : Char) (l : List Char) :
    parseStrBody (jsonEscapeChar c ++ l) =
      (parseStrBody l).map (fun p => (c :: p.1, p.2)) := by
  by_cases h1 : c = '"'
  · subst h1; rfl
  · by_cases h2 : c = '\\'
    · subst h2
      rw [show jsonEscapeChar '\\' = ['\\', '\\'] from rfl]
      rfl
    · by_cases h3 : c = '\x08'
      · subst h3
        rw [show jsonEscapeChar '\x08' = ['\\', 'b'] from rfl]
        rfl
      · by_cases h4 : c = '\x0c'
        · subst h4
          rw [show jsonEscapeChar '\x0c' = ['\\', 'f'] from rfl]
          rfl
        · by_cases h5 : c = '\n'
          · subst h5
            rw [show jsonEscapeChar '\n' = ['\\', 'n'] from rfl]
            rfl
          · by_cases h6 : c = '\r'
            · subst h6
              rw [show jsonEscapeChar '\r' = ['\\', 'r'] from rfl]
              rfl
            · by_cases h7 : c = '\t'
              · subst h7
                rw [show jsonEscapeChar '\t' = ['\\', 't'] from rfl]
                rfl
              · by_cases h8 : 0x20 ≤ c.toNat ∧ c.toNat ≤ 0x7e
                · have hesc : jsonEscapeChar c = [c] := by
                    rw [jsonEscapeChar, if_neg h1, if_neg h2, if_neg h3, if_neg h4,
                        if_neg h5, if_neg h6, if_neg h7, if_pos h8]
                  rw [hesc]
                  exact parseStrBody_raw c h1 h2 l
                · by_cases h9 : c.toNat < 0x10000
                  · have hesc : jsonEscapeChar c =
                        '\\' :: 'u' :: [hexLower (c.toNat / 4096 % 16),
                          hexLower (c.toNat / 256 % 16), hexLower (c.toNat / 16 % 16),
                          hexLower (c.toNat % 16)] := by
                      rw [jsonEscapeChar, if_neg h1, if_neg h2, if_neg h3, if_neg h4,
                          if_neg h5, if_neg h6, if_neg h7, if_neg h8, if_pos h9]
                    rw [hesc]
                    have hu := parseStrBody_u (t := c.toNat) c.valid h9 l
                    simp only [Char.ofNat_toNat] at hu
                    exact hu
                  · have ht1 : 0x10000 ≤ c.toNat := by omega
                    have ht2 : c.toNat < 0x110000 := by
                      rcases char_valid_ranges c with h | h <;> omega
                    have hesc : jsonEscapeChar c =
                        '\\' :: 'u' ::
                          [hexLower ((0xd800 + (c.toNat - 0x10000) / 0x400) / 4096 % 16),
                           hexLower ((0xd800 + (c.toNat - 0x10000) / 0x400) / 256 % 16),
                           hexLower ((0xd800 + (c.toNat - 0x10000) / 0x400) / 16 % 16),
                           hexLower ((0xd800 + (c.toNat - 0x10000) / 0x400) % 16)] ++
                        ('\\' :: 'u' ::
                          [hexLower ((0xdc00 + (c.toNat - 0x10000) % 0x400) / 4096 % 16),
                           hexLower ((0xdc00 + (c.toNat - 0x10000) % 0x400) / 256 % 16),
                           hexLower ((0xdc00 + (c.toNat - 0x10000) % 0x400) / 16 % 16),
                           hexLower ((0xdc00 + (c.toNat - 0x10000) % 0x400) % 16)]) := by
                      rw [jsonEscapeChar, if_neg h1, if_neg h2, if_neg h3, if_neg h4,
                          if_neg h5, if_neg h6, if_neg h7, if_neg h8, if_neg h9]
                    rw [hesc]
                    have hs := parseStrBody_surr (t := c.toNat) ht1 ht2 rfl rfl l
                    simp only [Char.ofNat_toNat] at hs
                    exact hs

theorem parseStrBody_escBody (s rest : List Char) :
    parseStrBody (escBody s ++ '"' :: rest) = some (s, rest) := by
  induction s with
  | nil =>
    rw [escBody, List.nil_append]
    rfl
  | cons c cs ih =>
    rw [escBody, List.append_assoc]
    rw [parseStrBody_escChar c (escBody cs ++ '"' :: rest)]
    rw [ih]
    rfl

/-! ## Helper lemmas: reading back serialized values -/

theorem string_mk_data (s : String) : String.mk s.data = s := by
  cases s
  rfl

theorem dumpStr_cons (k : String) (A : List Char) :
    dumpStr k ++ A = '"' :: (escBody k.data ++ '"' :: A) := by
  simp [dumpStr]

theorem parseVal_quote (fuel : Nat) (rest : List Char) :
    parseVal (fuel + 1) ('"' :: rest) =
      (parseStrBody rest).map (fun p => (JVal.str (String.mk p.1), p.2)) := by
  cases rest with
  | nil => rfl
  | cons r rs =>
    by_cases h1 : r = ']'
    · subst h1
      rw [parseVal.eq_3, if_pos rfl]
    · by_cases h2 : r = '\x7d'
      · subst h2
        rw [parseVal.eq_4, if_pos rfl]
      · rw [parseVal.eq_5 _ _ _ (fun r2 h => h1 (List.cons_eq_cons.mp h).1)
            (fun r2 h => h2 (List.cons_eq_cons.mp h).1), if_pos rfl]

theorem parseVal_dumpStr (fuel : Nat) (s : String) (rest : List Char) :
    parseVal (fuel + 1) (dumpStr s ++ rest) = some (JVal.str s, rest) := by
  rw [dumpStr_cons, parseVal_quote, parseStrBody_escBody]
  simp [string_mk_data]

theorem takeWhile_append_all {p : Char → Bool} {l1 : List Char}
    (h : ∀ c ∈ l1, p c = true) (l2 : List Char) :
    (l1 ++ l2).takeWhile p = l1 ++ l2.takeWhile p := by
  induction l1 with
  | nil => rfl
  | cons c cs ih =>
    rw [List.cons_append, List.takeWhile_cons_of_pos (h c (List.mem_cons_self c cs)),
        ih (fun x hx => h x (List.mem_cons_of_mem c hx)), List.cons_append]

theorem dropWhile_append_all {p : Char → Bool} {l1 : List Char}
    (h : ∀ c ∈ l1, p c = true) (l2 : List Char) :
    (l1 ++ l2).dropWhile p = l2.dropWhile p := by
  induction l1 with
  | nil => rfl
  | cons c cs ih =>
    rw [List.cons_append, List.dropWhile_cons_of_pos (h c (List.mem_cons_self c cs)),
        ih (fun x hx => h x (List.mem_cons_of_mem c hx))]

theorem dropWhile_of_takeWhile_nil {p : Char → Bool} {l : List Char}
    (h : l.takeWhile p = []) : l.dropWhile p = l := by
  cases l with
  | nil => rfl
  | cons c cs =>
    rw [List.takeWhile_cons] at h
    by_cases hp : p c
    · rw [if_pos hp] at h
      exact absurd h (by simp)
    · rw [List.dropWhile_cons_of_neg hp]

theorem natDecimalAux_irrel : ∀ f1 f2 n, n < f1 → n < f2 →
    natDecimalAux f1 n = natDecimalAux f2 n := by
  intro f1
  induction f1 with
  | zero => intro f2 n h1 h2; omega
  | succ f1 ih =>
    intro f2 n h1 h2
    cases f2 with
    | zero => omega
    | succ f2 =>
      rw [natDecimalAux, natDecimalAux]
      by_cases h : n < 10
      · rw [if_pos h, if_pos h]
      · have hd : n / 10 < n := Nat.div_lt_self (by omega) (by omega)
        rw [if_neg h, if_neg h, ih f2 (n / 10) (by omega) (by omega)]

theorem natDecimal_eq (n : Nat) : natDecimal n =
    if n < 10 then [decDigit n] else natDecimal (n / 10) ++ [decDigit (n % 10)] := by
  unfold natDecimal
  rw [natDecimalAux]
  by_cases h : n < 10
  · rw [if_pos h, if_pos h]
  · have hd : n / 10 < n := Nat.div_lt_self (by omega) (by omega)
    rw [if_neg h, if_neg h,
      natDecimalAux_irrel n (n / 10 + 1) (n / 10) (by omega) (by omega)]

theorem natDecimal_digit : ∀ n : Nat, ∀ c ∈ natDecimal n, isDigitChar c = true := by
  intro n
  induction n using Nat.strong_induction_on with
  | _ n ih =>
    intro c hc
    rw [natDecimal_eq] at hc
    by_cases h : n < 10
    · rw [if_pos h] at hc
      simp only [List.mem_singleton] at hc
      subst hc
      unfold isDigitChar decDigit
      rw [char_toNat_ofNat (nat_isValidChar_of_lt (by omega))]
      simp only [Bool.and_eq_true, decide_eq_true_eq]
      omega
    · rw [if_neg h] at hc
      rcases List.mem_append.mp hc with h1 | h2
      · exact ih (n / 10) (Nat.div_lt_self (by omega) (by omega)) c h1
      · simp only [List.mem_singleton] at h2
        subst h2
        unfold isDigitChar decDigit
        rw [char_toNat_ofNat (nat_isValidChar_of_lt (by omega))]
        simp only [Bool.and_eq_true, decide_eq_true_eq]
        omega

theorem natDecimal_ne_nil (n : Nat) : natDecimal n ≠ [] := by
  rw [natDecimal_eq]
  by_cases h : n < 10
  · simp [h]
  · simp [h]

theorem digitsVal_natDecimal : ∀ n : Nat, digitsVal (natDecimal n) = n := by
  intro n
  induction n using Nat.strong_induction_on with
  | _ n ih =>
    rw [natDecimal_eq]
    by_cases h : n < 10
    · rw [if_pos h]
      unfold digitsVal decDigit
      simp only [List.foldl_cons, List.foldl_nil]
      rw [char_toNat_ofNat (nat_isValidChar_of_lt (by omega))]
      omega
    · rw [if_neg h]
      unfold digitsVal
      rw [List.foldl_append]
      have ihv := ih (n / 10) (Nat.div_lt_self (by omega) (by omega))
      unfold digitsVal at ihv
      rw [ihv]
      simp only [List.foldl_cons, List.foldl_nil]
      unfold decDigit
      rw [char_toNat_ofNat (nat_isValidChar_of_lt (by omega))]
      omega

theorem parseNat_natDecimal (n : Nat) (rest : List Char)
    (h : rest.takeWhile isDigitChar = []) :
    parseNat (natDecimal n ++ rest) = some (n, rest) := by
  unfold parseNat
  rw [takeWhile_append_all (natDecimal_digit n) rest, h, List.append_nil]
  rw [dropWhile_append_all (natDecimal_digit n) rest, dropWhile_of_takeWhile_nil h]
  rw [if_neg (by simp [natDecimal_ne_nil n])]
  rw [digitsVal_natDecimal]

theorem parseVal_digitC (fuel : Nat) (c : Char) (rest : List Char)
    (hc : isDigitChar c = true) :
    parseVal (fuel + 1) (c :: rest) =
      (parseNat (c :: rest)).map (fun p => (JVal.jint (p.1 : Int), p.2)) := by
  have h34 : 48 ≤ c.toNat ∧ c.toNat ≤ 57 := by
    simpa [isDigitChar, Bool.and_eq_true, decide_eq_true_eq] using hc
  have hq : c ≠ '"' := by
    intro hcc
    rw [hcc] at h34
    have : ('"').toNat = 34 := rfl
    omega
  have hb : c ≠ '[' := by
    intro hcc
    rw [hcc] at h34
    have : ('[').toNat = 91 := rfl
    omega
  have ho : c ≠ '\x7b' := by
    intro hcc
    rw [hcc] at h34
    have : ('\x7b').toNat = 123 := rfl
    omega
  have hm : c ≠ '-' := by
    intro hcc
    rw [hcc] at h34
    have : ('-').toNat = 45 := rfl
    omega
  cases rest with
  | nil =>
    rw [parseVal.eq_5 _ _ _ (fun r2 hr => List.noConfusion hr)
        (fun r2 hr => List.noConfusion hr)]
    rw [if_neg hq, if_neg hb, if_neg ho, if_neg hm, if_pos hc]
  | cons r rs =>
    by_cases h1 : r = ']'
    · subst h1
      rw [parseVal.eq_3, if_neg hq, if_neg hb, if_neg ho, if_neg hm, if_pos hc]
    · by_cases h2 : r = '\x7d'
      · subst h2
        rw [parseVal.eq_4, if_neg hq, if_neg hb, if_neg ho, if_neg hm, if_pos hc]
      · rw [parseVal.eq_5 _ _ _ (fun r2 hr => h1 (List.cons_eq_cons.mp hr).1)
            (fun r2 hr => h2 (List.cons_eq_cons.mp hr).1),
          if_neg hq, if_neg hb, if_neg ho, if_neg hm, if_pos hc]

theorem parseVal_natDecimal (fuel : Nat) (n : Nat) (rest : List Char)
    (h : rest.takeWhile isDigitChar = []) :
    parseVal (fuel + 1) (natDecimal n ++ rest) = some (JVal.jint (n : Int), rest) := by
  obtain ⟨d, ds, hd⟩ : ∃ d ds, natDecimal n = d :: ds := by
    cases h' : natDecimal n with
    | nil => exact absurd h' (natDecimal_ne_nil n)
    | cons d ds => exact ⟨d, ds, rfl⟩
  have hdig : isDigitChar d = true :=
    natDecimal_digit n d (by rw [hd]; exact List.mem_cons_self d ds)
  rw [hd, List.cons_append, parseVal_digitC fuel d (ds ++ rest) hdig,
      ← List.cons_append, ← hd, parseNat_natDecimal n rest h]
  rfl

theorem parseVal_intDecimal (fuel : Nat) (p : Int) (hp : 0 ≤ p) (rest : List Char)
    (h : rest.takeWhile isDigitChar = []) :
    parseVal (fuel + 1) (intDecimal p ++ rest) = some (JVal.jint p, rest) := by
  rw [intDecimal, if_neg (by omega), parseVal_natDecimal fuel p.toNat rest h,
      Int.toNat_of_nonneg hp]

theorem parseVal_brkt (fuel : Nat) (s : String) (A : List Char) :
    parseVal (fuel + 1) ('[' :: (dumpStr s ++ A)) =
      (parseArrItems fuel (dumpStr s ++ A)).map (fun p => (JVal.arr p.1, p.2)) := by
  rw [dumpStr_cons]
  rw [parseVal.eq_5 _ _ _
      (fun r2 h => absurd (List.cons_eq_cons.mp h).1 (by decide))
      (fun r2 h => absurd (List.cons_eq_cons.mp h).1 (by decide))]
  rw [if_neg (by decide), if_pos rfl]

theorem parseVal_arr1 (fuel : Nat) (s : String) (rest : List Char) :
    parseVal (fuel + 3) ('[' :: (dumpStr s ++ ']' :: rest)) =
      some (JVal.arr [JVal.str s], rest) := by
  have h1 := parseVal_brkt (fuel + 2) s (']' :: rest)
  rw [show fuel + 3 = fuel + 2 + 1 from rfl, h1]
  rw [parseArrItems.eq_2]
  rw [parseVal_dumpStr fuel s (']' :: rest)]
  rfl

theorem parseObjItems_step (fuel : Nat) (k : String) {V W : List Char} {v : JVal}
    (hv : parseVal fuel V = some (v, ',' :: W)) :
    parseObjItems (fuel + 1) (dumpStr k ++ ':' :: V) =
      (parseObjItems fuel W).map (fun p => ((k, v) :: p.1, p.2)) := by
  rw [dumpStr_cons]
  rw [parseObjItems.eq_2]
  rw [parseStrBody_escBody k.data (':' :: V)]
  show (match parseVal fuel V with
    | some (v2, ',' :: r3) =>
      Option.map (fun p => ((String.mk k.data, v2) :: p.1, p.2)) (parseObjItems fuel r3)
    | some (v2, '\x7d' :: r3) => some ([(String.mk k.data, v2)], r3)
    | _ => none) =
    Option.map (fun p => ((k, v) :: p.1, p.2)) (parseObjItems fuel W)
  rw [hv, string_mk_data]
  rfl

theorem parseObjItems_last (fuel : Nat) (k : String) {V W : List Char} {v : JVal}
    (hv : parseVal fuel V = some (v, '\x7d' :: W)) :
    parseObjItems (fuel + 1) (dumpStr k ++ ':' :: V) = some ([(k, v)], W) := by
  rw [dumpStr_cons]
  rw [parseObjItems.eq_2]
  rw [parseStrBody_escBody k.data (':' :: V)]
  show (match parseVal fuel V with
    | some (v2, ',' :: r3) =>
      Option.map (fun p => ((String.mk k.data, v2) :: p.1, p.2)) (parseObjItems fuel r3)
    | some (v2, '\x7d' :: r3) => some ([(String.mk k.data, v2)], r3)
    | _ => none) = some ([(k, v)], W)
  rw [hv, string_mk_data]
  rfl

theorem parseVal_brace (fuel : Nat) (k : String) (A : List Char) :
    parseVal (fuel + 1) ('\x7b' :: (dumpStr k ++ A)) =
      (parseObjItems fuel (dumpStr k ++ A)).map (fun p => (JVal.obj p.1, p.2)) := by
  rw [dumpStr_cons]
  rw [parseVal.eq_5 _ _ _
      (fun r2 h => absurd (List.cons_eq_cons.mp h).1 (by decide))
      (fun r2 h => absurd (List.cons_eq_cons.mp h).1 (by decide))]
  rw [if_neg (by decide), if_neg (by decide), if_pos rfl]

theorem parseVal_queryA (f : Nat) (k1 v1 k2 v2 : String) (rest : List Char) :
    parseVal (f + 6)
      (dumpVal (JVal.obj [(k1, JVal.str v1), (k2, JVal.arr [JVal.str v2])]) ++ rest) =
      some (JVal.obj [(k1, JVal.str v1), (k2, JVal.arr [JVal.str v2])], rest) := by
  have hd : dumpVal (JVal.obj [(k1, JVal.str v1), (k2, JVal.arr [JVal.str v2])]) ++ rest =
      '\x7b' :: (dumpStr k1 ++ ':' :: (dumpStr v1 ++ ',' :: (dumpStr k2 ++ ':' ::
        ('[' :: (dumpStr v2 ++ ']' :: '\x7d' :: rest))))) := by
    simp [dumpVal, dumpMembers, dumpElems, List.append_assoc]
  rw [hd]
  rw [show f + 6 = f + 5 + 1 from rfl,
      parseVal_brace (f + 5) k1 (':' :: (dumpStr v1 ++ ',' :: (dumpStr k2 ++ ':' ::
        ('[' :: (dumpStr v2 ++ ']' :: '\x7d' :: rest)))))]
  have hv1 : parseVal (f + 4) (dumpStr v1 ++ ',' :: (dumpStr k2 ++ ':' ::
      ('[' :: (dumpStr v2 ++ ']' :: '\x7d' :: rest)))) =
      some (JVal.str v1, ',' :: (dumpStr k2 ++ ':' ::
        ('[' :: (dumpStr v2 ++ ']' :: '\x7d' :: rest)))) :=
    parseVal_dumpStr (f + 3) v1 _
  rw [show f + 5 = f + 4 + 1 from rfl, parseObjItems_step (f + 4) k1 hv1]
  have hv2 : parseVal (f + 3) ('[' :: (dumpStr v2 ++ ']' :: '\x7d' :: rest)) =
      some (JVal.arr [JVal.str v2], '\x7d' :: rest) :=
    parseVal_arr1 f v2 ('\x7d' :: rest)
  rw [show f + 4 = f + 3 + 1 from rfl, parseObjItems_last (f + 3) k2 hv2]
  rfl

theorem parseVal_queryB (f : Nat) (k1 v1 k2 v2 k3 k4 : String) (n3 n4 : Int)
    (h3 : 0 ≤ n3) (h4 : 0 ≤ n4) (rest : List Char) :
    parseVal (f + 6)
      (dumpVal (JVal.obj [(k1, JVal.str v1), (k2, JVal.arr [JVal.str v2]),
        (k3, JVal.jint n3), (k4, JVal.jint n4)]) ++ rest) =
      some (JVal.obj [(k1, JVal.str v1), (k2, JVal.arr [JVal.str v2]),
        (k3, JVal.jint n3), (k4, JVal.jint n4)], rest) := by
  have hd : dumpVal (JVal.obj [(k1, JVal.str v1), (k2, JVal.arr [JVal.str v2]),
      (k3, JVal.jint n3), (k4, JVal.jint n4)]) ++ rest =
      '\x7b' :: (dumpStr k1 ++ ':' :: (dumpStr v1 ++ ',' :: (dumpStr k2 ++ ':' ::
        ('[' :: (dumpStr v2 ++ ']' :: ',' :: (dumpStr k3 ++ ':' :: (intDecimal n3 ++
          ',' :: (dumpStr k4 ++ ':' :: (intDecimal n4 ++ '\x7d' :: rest))))))))) := by
    simp [dumpVal, dumpMembers, dumpElems, List.append_assoc]
  rw [hd]
  rw [show f + 6 = f + 5 + 1 from rfl,
      parseVal_brace (f + 5) k1 _]
  have hv1 : parseVal (f + 4) (dumpStr v1 ++ ',' :: (dumpStr k2 ++ ':' ::
      ('[' :: (dumpStr v2 ++ ']' :: ',' :: (dumpStr k3 ++ ':' :: (intDecimal n3 ++
        ',' :: (dumpStr k4 ++ ':' :: (intDecimal n4 ++ '\x7d' :: rest)))))))) =
      some (JVal.str v1, ',' :: (dumpStr k2 ++ ':' ::
        ('[' :: (dumpStr v2 ++ ']' :: ',' :: (dumpStr k3 ++ ':' :: (intDecimal n3 ++
          ',' :: (dumpStr k4 ++ ':' :: (intDecimal n4 ++ '\x7d' :: rest)))))))) :=
    parseVal_dumpStr (f + 3) v1 _
  rw [show f + 5 = f + 4 + 1 from rfl, parseObjItems_step (f + 4) k1 hv1]
  have hv2 : parseVal (f + 3) ('[' :: (dumpStr v2 ++ ']' :: ',' ::
      (dumpStr k3 ++ ':' :: (intDecimal n3 ++ ',' :: (dumpStr k4 ++ ':' ::
        (intDecimal n4 ++ '\x7d' :: rest)))))) =
      some (JVal.arr [JVal.str v2], ',' :: (dumpStr k3 ++ ':' :: (intDecimal n3 ++
        ',' :: (dumpStr k4 ++ ':' :: (intDecimal n4 ++ '\x7d' :: rest))))) :=
    parseVal_arr1 f v2 _
  rw [show f + 4 = f + 3 + 1 from rfl, parseObjItems_step (f + 3) k2 hv2]
  have hv3 : parseVal (f + 2) (intDecimal n3 ++ ',' :: (dumpStr k4 ++ ':' ::
      (intDecimal n4 ++ '\x7d' :: rest))) =
      some (JVal.jint n3, ',' :: (dumpStr k4 ++ ':' ::
        (intDecimal n4 ++ '\x7d' :: rest))) :=
    parseVal_intDecimal (f + 1) n3 h3 _ (by rw [List.takeWhile_cons_of_neg (by decide)])
  rw [show f + 3 = f + 2 + 1 from rfl, parseObjItems_step (f + 2) k3 hv3]
  have hv4 : parseVal (f + 1) (intDecimal n4 ++ '\x7d' :: rest) =
      some (JVal.jint n4, '\x7d' :: rest) :=
    parseVal_intDecimal f n4 h4 _ (by rw [List.takeWhile_cons_of_neg (by decide)])
  rw [show f + 2 = f + 1 + 1 from rfl, parseObjItems_last (f + 1) k4 hv4]
  rfl


theorem mem_ascii_cons {c : Char} {l : List Char} (hc : c.toNat < 0x80)
    (h : ∀ x ∈ l, x.toNat < 0x80) : ∀ x ∈ c :: l, x.toNat < 0x80 := by
  intro x hx
  rcases List.mem_cons.mp hx with rfl | hx
  · exact hc
  · exact h x hx

theorem mem_ascii_append {l1 l2 : List Char} (h1 : ∀ x ∈ l1, x.toNat < 0x80)
    (h2 : ∀ x ∈ l2, x.toNat < 0x80) : ∀ x ∈ l1 ++ l2, x.toNat < 0x80 := by
  intro x hx
  rcases List.mem_append.mp hx with hx | hx
  · exact h1 x hx
  · exact h2 x hx

theorem hexLower_ascii : ∀ d < 16, (hexLower d).toNat < 0x80 := by decide

theorem jsonEscapeChar_ascii (c : Char) : ∀ x ∈ jsonEscapeChar c, x.toNat < 0x80 := by
  by_cases h1 : c = '"'
  · subst h1; decide
  · by_cases h2 : c = '\\'
    · subst h2
      rw [show jsonEscapeChar '\\' = ['\\', '\\'] from rfl]
      decide
    · by_cases h3 : c = '\x08'
      · subst h3
        rw [show jsonEscapeChar '\x08' = ['\\', 'b'] from rfl]
        decide
      · by_cases h4 : c = '\x0c'
        · subst h4
          rw [show jsonEscapeChar '\x0c' = ['\\', 'f'] from rfl]
          decide
        · by_cases h5 : c = '\n'
          · subst h5
            rw [show jsonEscapeChar '\n' = ['\\', 'n'] from rfl]
            decide
          · by_cases h6 : c = '\r'
            · subst h6
              rw [show jsonEscapeChar '\r' = ['\\', 'r'] from rfl]
              decide
            · by_cases h7 : c = '\t'
              · subst h7
                rw [show jsonEscapeChar '\t' = ['\\', 't'] from rfl]
                decide
              · by_cases h8 : 0x20 <= c.toNat /\ c.toNat <= 0x7e
                · rw [jsonEscapeChar, if_neg h1, if_neg h2, if_neg h3, if_neg h4,
                      if_neg h5, if_neg h6, if_neg h7, if_pos h8]
                  intro x hx
                  rcases List.mem_singleton.mp hx with rfl
                  omega
                · by_cases h9 : c.toNat < 0x10000
                  · rw [jsonEscapeChar, if_neg h1, if_neg h2, if_neg h3, if_neg h4,
                        if_neg h5, if_neg h6, if_neg h7, if_neg h8, if_pos h9]
                    exact mem_ascii_cons (by decide) (mem_ascii_cons (by decide)
                      (mem_ascii_cons (hexLower_ascii _ (Nat.mod_lt _ (by omega)))
                        (mem_ascii_cons (hexLower_ascii _ (Nat.mod_lt _ (by omega)))
                          (mem_ascii_cons (hexLower_ascii _ (Nat.mod_lt _ (by omega)))
                            (mem_ascii_cons (hexLower_ascii _ (Nat.mod_lt _ (by omega)))
                              (by intro x hx; cases hx))))))
                  · rw [jsonEscapeChar, if_neg h1, if_neg h2, if_neg h3, if_neg h4,
                        if_neg h5, if_neg h6, if_neg h7, if_neg h8, if_neg h9]
                    exact mem_ascii_append
                      (mem_ascii_cons (by decide) (mem_ascii_cons (by decide)
                        (mem_ascii_cons (hexLower_ascii _ (Nat.mod_lt _ (by omega)))
                          (mem_ascii_cons (hexLower_ascii _ (Nat.mod_lt _ (by omega)))
                            (mem_ascii_cons (hexLower_ascii _ (Nat.mod_lt _ (by omega)))
                              (mem_ascii_cons (hexLower_ascii _ (Nat.mod_lt _ (by omega)))
                                (by intro x hx; cases hx)))))))
                      (mem_ascii_cons (by decide) (mem_ascii_cons (by decide)
                        (mem_ascii_cons (hexLower_ascii _ (Nat.mod_lt _ (by omega)))
                          (mem_ascii_cons (hexLower_ascii _ (Nat.mod_lt _ (by omega)))
                            (mem_ascii_cons (hexLower_ascii _ (Nat.mod_lt _ (by omega)))
                              (mem_ascii_cons (hexLower_ascii _ (Nat.mod_lt _ (by omega)))
                                (by intro x hx; cases hx)))))))

theorem escBody_ascii (l : List Char) : ∀ x ∈ escBody l, x.toNat < 0x80 := by
  induction l with
  | nil => intro x hx; cases hx
  | cons c cs ih =>
    rw [escBody]
    exact mem_ascii_append (jsonEscapeChar_ascii c) ih

theorem dumpStr_ascii (s : String) : ∀ x ∈ dumpStr s, x.toNat < 0x80 := by
  unfold dumpStr
  exact mem_ascii_cons (by decide) (mem_ascii_append (escBody_ascii s.data)
    (mem_ascii_cons (by decide) (by intro x hx; cases hx)))

theorem natDecimal_ascii (n : Nat) : ∀ x ∈ natDecimal n, x.toNat < 0x80 := by
  intro x hx
  have := natDecimal_digit n x hx
  simp only [isDigitChar, Bool.and_eq_true, decide_eq_true_eq] at this
  omega

theorem intDecimal_ascii (n : Int) : ∀ x ∈ intDecimal n, x.toNat < 0x80 := by
  unfold intDecimal
  split_ifs
  · exact mem_ascii_cons (by decide) (natDecimal_ascii _)
  · exact natDecimal_ascii _


theorem qJson_ascii (c : PyCongress) (s : String) (p : Int) :
    ∀ x ∈ qJson c s p, x.toNat < 0x80 := by
  by_cases hp : p > 1
  · have hd : qJson c s p =
        '\x7b' :: (dumpStr "congress" ++ ':' :: (dumpStr (congressVal c) ++ ',' ::
          (dumpStr "source" ++ ':' :: ('[' :: (dumpStr s ++ ']' :: ',' ::
            (dumpStr "pageSize" ++ ':' :: (intDecimal 100 ++ ',' ::
              (dumpStr "page" ++ ':' :: (intDecimal p ++ ['\x7d']))))))))) := by
      simp [qJson, buildQuery, hp, dumpVal, dumpMembers, dumpElems, List.append_assoc]
    rw [hd]
    exact mem_ascii_cons (by decide) (mem_ascii_append (dumpStr_ascii _)
      (mem_ascii_cons (by decide) (mem_ascii_append (dumpStr_ascii _)
        (mem_ascii_cons (by decide) (mem_ascii_append (dumpStr_ascii _)
          (mem_ascii_cons (by decide) (mem_ascii_cons (by decide)
            (mem_ascii_append (dumpStr_ascii _) (mem_ascii_cons (by decide)
              (mem_ascii_cons (by decide) (mem_ascii_append (dumpStr_ascii _)
                (mem_ascii_cons (by decide) (mem_ascii_append (intDecimal_ascii _)
                  (mem_ascii_cons (by decide) (mem_ascii_append (dumpStr_ascii _)
                    (mem_ascii_cons (by decide) (mem_ascii_append (intDecimal_ascii _)
                      (mem_ascii_cons (by decide)
                        (by intro x hx; cases hx)))))))))))))))))))
  · have hd : qJson c s p =
        '\x7b' :: (dumpStr "congress" ++ ':' :: (dumpStr (congressVal c) ++ ',' ::
          (dumpStr "source" ++ ':' :: ('[' :: (dumpStr s ++ [']', '\x7d']))))) := by
      simp [qJson, buildQuery, hp, dumpVal, dumpMembers, dumpElems, List.append_assoc]
    rw [hd]
    exact mem_ascii_cons (by decide) (mem_ascii_append (dumpStr_ascii _)
      (mem_ascii_cons (by decide) (mem_ascii_append (dumpStr_ascii _)
        (mem_ascii_cons (by decide) (mem_ascii_append (dumpStr_ascii _)
          (mem_ascii_cons (by decide) (mem_ascii_cons (by decide)
            (mem_ascii_append (dumpStr_ascii _)
              (show ∀ x ∈ ([']', '\x7d'] : List Char), x.toNat < 0x80 by decide)))))))))

theorem dumpStr_len (s : String) : 2 ≤ (dumpStr s).length := by
  unfold dumpStr
  simp

theorem qJson_len (c : PyCongress) (s : String) (p : Int) :
    5 ≤ (qJson c s p).length := by
  by_cases hp : p > 1
  · have hd : qJson c s p =
        '\x7b' :: (dumpStr "congress" ++ ':' :: (dumpStr (congressVal c) ++ ',' ::
          (dumpStr "source" ++ ':' :: ('[' :: (dumpStr s ++ ']' :: ',' ::
            (dumpStr "pageSize" ++ ':' :: (intDecimal 100 ++ ',' ::
              (dumpStr "page" ++ ':' :: (intDecimal p ++ ['\x7d']))))))))) := by
      simp [qJson, buildQuery, hp, dumpVal, dumpMembers, dumpElems, List.append_assoc]
    rw [hd]
    have := dumpStr_len "congress"
    simp [List.length_append]
    omega
  · have hd : qJson c s p =
        '\x7b' :: (dumpStr "congress" ++ ':' :: (dumpStr (congressVal c) ++ ',' ::
          (dumpStr "source" ++ ':' :: ('[' :: (dumpStr s ++ [']', '\x7d']))))) := by
      simp [qJson, buildQuery, hp, dumpVal, dumpMembers, dumpElems, List.append_assoc]
    rw [hd]
    have := dumpStr_len "congress"
    simp [List.length_append]
    omega


/-- C4: for every congress, source and page ≥ 1, percent-decoding the
value of the `q` parameter of the URL returned by `build_search_url` and
JSON-decoding the result yields exactly the query object used to build
the URL (lossless encode/decode round-trip). -/
theorem build_search_url_roundtrip (c : PyCongress) (s : String) (p : Int) (_hp : 1 ≤ p) :
    ∃ enc, build_search_url c s p =
        String.mk (base_url.data ++ "?q=".data ++ enc) ∧
      jsonRead (unquotePlus enc) = some (JVal.obj (buildQuery c s p)) := by
  refine ⟨quotePlus (qJson c s p), rfl, ?_⟩
  rw [unquote_quote (qJson_ascii c s p)]
  unfold jsonRead
  obtain ⟨f, hf⟩ : ∃ f, (qJson c s p).length + 1 = f + 6 :=
    ⟨(qJson c s p).length - 5, by have := qJson_len c s p; omega⟩
  rw [hf]
  by_cases hp1 : p > 1
  · have hq : qJson c s p = dumpVal (JVal.obj [("congress", JVal.str (congressVal c)),
        ("source", JVal.arr [JVal.str s]), ("pageSize", JVal.jint 100),
        ("page", JVal.jint p)]) ++ [] := by
      simp [qJson, buildQuery, hp1]
    have hb : buildQuery c s p = [("congress", JVal.str (congressVal c)),
        ("source", JVal.arr [JVal.str s]), ("pageSize", JVal.jint 100),
        ("page", JVal.jint p)] := by
      simp [buildQuery, hp1]
    rw [hq, hb]
    rw [parseVal_queryB f "congress" (congressVal c) "source" s "pageSize" "page"
        100 p (by omega) (by omega) []]
  · have hq : qJson c s p = dumpVal (JVal.obj [("congress", JVal.str (congressVal c)),
        ("source", JVal.arr [JVal.str s])]) ++ [] := by
      simp [qJson, buildQuery, hp1]
    have hb : buildQuery c s p = [("congress", JVal.str (congressVal c)),
        ("source", JVal.arr [JVal.str s])] := by
      simp [buildQuery, hp1]
    rw [hq, hb]
    rw [parseVal_queryA f "congress" (congressVal c) "source" s []]


/-- Witness for `build_search_url_roundtrip` at congress 119, source
`legislation`, page 2. -/
theorem build_search_url_roundtrip_w :
    ∃ enc, build_search_url (.int 119) "legislation" 2 =
        String.mk (base_url.data ++ "?q=".data ++ enc) ∧
      jsonRead (unquotePlus enc) =
        some (JVal.obj (buildQuery (.int 119) "legislation" 2)) :=
  build_search_url_roundtrip (.int 119) "legislation" 2 (by decide)

/-- C2: for every congress, source and page ≥ 1, the query object
serialized into the `q` parameter contains the members `pageSize = 100`
and `page = page` exactly when `page > 1`, and when `page = 1` the two
keys are entirely absent from the object. -/
theorem buildQuery_pagination_keys (c : PyCongress) (s : String) (p : Int)
    (hp : 1 ≤ p) :
    (((buildQuery c s p).lookup "pageSize" = some (JVal.jint 100) ∧
      (buildQuery c s p).lookup "page" = some (JVal.jint p)) ↔ 1 < p) ∧
    (p = 1 → "pageSize" ∉ (buildQuery c s p).map Prod.fst ∧
      "page" ∉ (buildQuery c s p).map Prod.fst) := by
  by_cases hp1 : 1 < p
  · constructor
    · simp [buildQuery, hp1, List.lookup]
    · intro h
      omega
  · have h1 : p = 1 := by omega
    subst h1
    simp [buildQuery, List.lookup]

/-- Witness for `buildQuery_pagination_keys` at congress 119,
source `legislation`, page 2. -/
theorem buildQuery_pagination_keys_w :
    (((buildQuery (.int 119) "legislation" 2).lookup "pageSize" =
        some (JVal.jint 100) ∧
      (buildQuery (.int 119) "legislation" 2).lookup "page" =
        some (JVal.jint 2)) ↔ (1 : Int) < 2) ∧
    ((2 : Int) = 1 →
      "pageSize" ∉ (buildQuery (.int 119) "legislation" 2).map Prod.fst ∧
      "page" ∉ (buildQuery (.int 119) "legislation" 2).map Prod.fst) :=
  buildQuery_pagination_keys (.int 119) "legislation" 2 (by decide)

/-- C3: the query object always maps `congress` to the string form of the
congress argument (an integer becomes its decimal string, the token `all`
stays `"all"`) and maps `source` to the one-element array `[source]`. -/
theorem buildQuery_congress_source (c : PyCongress) (s : String) (p : Int) :
    (buildQuery c s p).lookup "congress" = some (JVal.str (congressVal c)) ∧
    (buildQuery c s p).lookup "source" = some (JVal.arr [JVal.str s]) ∧
    congressVal (.str "all") = "all" ∧
    (∀ n : Int, congressVal (.int n) = String.mk (intDecimal n)) := by
  refine ⟨?_, ?_, rfl, fun _ => rfl⟩ <;> simp [buildQuery, List.lookup]


/-! ## Helper lemmas: search-result parsing -/

theorem parseItem_none (now : String) {item : SearchItem}
    (h : item.titleElem = none ∨ (∃ te, item.titleElem = some te ∧ te.link = none) ∨
      (∃ te l, item.titleElem = some te ∧ te.link = some l ∧ l.href = none)) :
    parseItem now item = none := by
  rcases h with h | ⟨te, h1, h2⟩ | ⟨te, l, h1, h2, h3⟩
  · simp [parseItem, h]
  · simp [parseItem, h1, h2]
  · simp [parseItem, h1, h2, h3]

theorem parseItem_some (now : String) (item : SearchItem)
    (te : TitleElem) (l : LinkElem) (href : String)
    (h1 : item.titleElem = some te) (h2 : te.link = some l) (h3 : l.href = some href) :
    parseItem now item =
      some [("bill_number", .pstr (pyStrip l.text)),
            ("title", .pstr (match item.description with
              | some d => pyStrip d
              | none => "No title available")),
            ("status", .pstr (match item.statusElem with
              | some st => pyStrip st
              | none => "Status unknown")),
            ("sponsor", .pstr (match item.sponsorElem with
              | some sp => pyStrip sp
              | none => "No sponsor info")),
            ("url", .pstr ("https://www.congress.gov" ++ href)),
            ("scraped_at", .pstr now)] := by
  simp [parseItem, h1, h2, h3]

/-- C9: `parse_search_results` excludes an item whose title/link chain is
absent without affecting sibling items, and for every included item
substitutes exactly the documented placeholder strings for an absent
description, status or sponsor (and the stripped element text when
present), never failing the whole page. -/
theorem parse_skip_and_placeholders (now : String) :
    (∀ (pre post : List SearchItem) (item : SearchItem),
      (item.titleElem = none ∨ (∃ te, item.titleElem = some te ∧ te.link = none) ∨
        (∃ te l, item.titleElem = some te ∧ te.link = some l ∧ l.href = none)) →
      parse_search_results now (pre ++ item :: post) =
        parse_search_results now pre ++ parse_search_results now post) ∧
    (∀ (item : SearchItem) (te : TitleElem) (l : LinkElem) (href : String),
      item.titleElem = some te → te.link = some l → l.href = some href →
      ∃ r, parseItem now item = some r ∧
        r.lookup "bill_number" = some (.pstr (pyStrip l.text)) ∧
        (item.description = none → r.lookup "title" = some (.pstr "No title available")) ∧
        (∀ d, item.description = some d → r.lookup "title" = some (.pstr (pyStrip d))) ∧
        (item.statusElem = none → r.lookup "status" = some (.pstr "Status unknown")) ∧
        (∀ st, item.statusElem = some st → r.lookup "status" = some (.pstr (pyStrip st))) ∧
        (item.sponsorElem = none → r.lookup "sponsor" = some (.pstr "No sponsor info")) ∧
        (∀ sp, item.sponsorElem = some sp →
          r.lookup "sponsor" = some (.pstr (pyStrip sp)))) := by
  constructor
  · intro pre post item h
    unfold parse_search_results
    rw [List.filterMap_append, List.filterMap_cons, parseItem_none now h]
  · intro item te l href h1 h2 h3
    refine ⟨_, parseItem_some now item te l href h1 h2 h3, ?_, ?_, ?_, ?_, ?_, ?_, ?_⟩
    · simp [List.lookup]
    · intro hd
      rw [hd]
      simp [List.lookup]
    · intro d hd
      rw [hd]
      simp [List.lookup]
    · intro hs
      rw [hs]
      simp [List.lookup]
    · intro st hs
      rw [hs]
      simp [List.lookup]
    · intro hs
      rw [hs]
      simp [List.lookup]
    · intro sp hs
      rw [hs]
      simp [List.lookup]

/-- Witness for `parse_skip_and_placeholders`: a skipped item between two
pages of siblings, and a kept item with all optional fields absent. -/
theorem parse_skip_and_placeholders_w :
    (parse_search_results "T"
        ([] ++ (⟨none, none, none, none⟩ : SearchItem) :: []) =
      parse_search_results "T" [] ++ parse_search_results "T" []) ∧
    (∃ r, parseItem "T"
        (⟨some ⟨some ⟨"HR1", some "/x"⟩⟩, none, none, none⟩ : SearchItem) = some r ∧
      r.lookup "bill_number" = some (.pstr (pyStrip "HR1")) ∧
      ((⟨some ⟨some ⟨"HR1", some "/x"⟩⟩, none, none, none⟩ : SearchItem).description =
          none → r.lookup "title" = some (.pstr "No title available")) ∧
      (∀ d, (⟨some ⟨some ⟨"HR1", some "/x"⟩⟩, none, none, none⟩ :
          SearchItem).description = some d →
        r.lookup "title" = some (.pstr (pyStrip d))) ∧
      ((⟨some ⟨some ⟨"HR1", some "/x"⟩⟩, none, none, none⟩ : SearchItem).statusElem =
          none → r.lookup "status" = some (.pstr "Status unknown")) ∧
      (∀ st, (⟨some ⟨some ⟨"HR1", some "/x"⟩⟩, none, none, none⟩ :
          SearchItem).statusElem = some st →
        r.lookup "status" = some (.pstr (pyStrip st))) ∧
      ((⟨some ⟨some ⟨"HR1", some "/x"⟩⟩, none, none, none⟩ : SearchItem).sponsorElem =
          none → r.lookup "sponsor" = some (.pstr "No sponsor info")) ∧
      (∀ sp, (⟨some ⟨some ⟨"HR1", some "/x"⟩⟩, none, none, none⟩ :
          SearchItem).sponsorElem = some sp →
        r.lookup "sponsor" = some (.pstr (pyStrip sp)))) :=
  ⟨(parse_skip_and_placeholders "T").1 [] [] ⟨none, none, none, none⟩ (Or.inl rfl),
   (parse_skip_and_placeholders "T").2 ⟨some ⟨some ⟨"HR1", some "/x"⟩⟩, none, none, none⟩
     ⟨some ⟨"HR1", some "/x"⟩⟩ ⟨"HR1", some "/x"⟩ "/x" rfl rfl rfl⟩

/-! ## Helper lemmas: Python dict update -/

theorem lookup_map_set (d : Dict) (k' : String) (v' : PyVal) (k : String) (h : k' ≠ k) :
    (d.map (fun kv => if kv.1 = k' then (k', v') else kv)).lookup k = d.lookup k := by
  induction d with
  | nil => rfl
  | cons kv d ih =>
    rw [List.map_cons]
    by_cases hk : kv.1 = k'
    · rw [if_pos hk]
      have h1 : (k == k') = false := by simp [Ne.symm h]
      have h2 : (k == kv.1) = false := by simp [hk, Ne.symm h]
      simp [List.lookup, h1, h2, ih]
    · rw [if_neg hk]
      by_cases hkk : kv.1 = k
      · simp [List.lookup, hkk]
      · have h2 : (k == kv.1) = false := by simp [Ne.symm hkk]
        simp [List.lookup, h2, ih]

theorem lookup_append_single_ne (d : Dict) (k' : String) (v' : PyVal) (k : String)
    (h : k' ≠ k) : (d ++ [(k', v')]).lookup k = d.lookup k := by
  induction d with
  | nil =>
    have h1 : (k == k') = false := by simp [Ne.symm h]
    simp [List.lookup, h1]
  | cons kv d ih =>
    by_cases hkk : kv.1 = k
    · simp [List.lookup, hkk]
    · have h2 : (k == kv.1) = false := by simp [Ne.symm hkk]
      simp [List.lookup, h2, ih]

theorem dictSet_lookup_ne (d : Dict) (k' : String) (v' : PyVal) (k : String)
    (h : k' ≠ k) : (dictSet d k' v').lookup k = d.lookup k := by
  unfold dictSet
  split_ifs with hmem
  · exact lookup_map_set d k' v' k h
  · exact lookup_append_single_ne d k' v' k h

theorem dictUpdate_lookup_ne (d e : Dict) (k : String)
    (h : ∀ kv ∈ e, kv.1 ≠ k) : (dictUpdate d e).lookup k = d.lookup k := by
  induction e generalizing d with
  | nil => rfl
  | cons kv e ih =>
    rw [show dictUpdate d (kv :: e) = dictUpdate (dictSet d kv.1 kv.2) e from rfl]
    rw [ih (dictSet d kv.1 kv.2) (fun x hx => h x (List.mem_cons_of_mem kv hx))]
    exact dictSet_lookup_ne d kv.1 kv.2 k (h kv (List.mem_cons_self kv e))

theorem dictSet_lookup_eq_of_mem (d : Dict) (k : String) (v : PyVal)
    (hmem : d.any (fun kv => kv.1 = k) = true) :
    (dictSet d k v).lookup k = some v := by
  unfold dictSet
  rw [if_pos hmem]
  induction d with
  | nil => cases hmem
  | cons kv d ih =>
    by_cases hk : kv.1 = k
    · rw [List.map_cons, if_pos hk]
      simp [List.lookup]
    · rw [List.map_cons, if_neg hk]
      have h2 : (k == kv.1) = false := by simp [Ne.symm hk]
      have hmem2 : d.any (fun kv => kv.1 = k) = true := by
        simp only [List.any_cons, Bool.or_eq_true, decide_eq_true_eq] at hmem
        rcases hmem with h | h
        · exact absurd h hk
        · exact h
      simp [List.lookup, h2, ih hmem2]

theorem dictSet_lookup_eq_of_not_mem (d : Dict) (k : String) (v : PyVal)
    (hmem : d.any (fun kv => kv.1 = k) = false) :
    (dictSet d k v).lookup k = some v := by
  unfold dictSet
  rw [if_neg (by simp [hmem])]
  induction d with
  | nil => simp [List.lookup]
  | cons kv d ih =>
    simp only [List.any_cons, Bool.or_eq_false_iff, decide_eq_false_iff_not] at hmem
    have h2 : (k == kv.1) = false := by simp [Ne.symm hmem.1]
    simp only [List.cons_append, List.lookup, h2]
    exact ih (by simp [hmem.2])

theorem dictSet_lookup_eq (d : Dict) (k : String) (v : PyVal) :
    (dictSet d k v).lookup k = some v := by
  cases hmem : d.any (fun kv => kv.1 = k)
  · exact dictSet_lookup_eq_of_not_mem d k v hmem
  · exact dictSet_lookup_eq_of_mem d k v hmem

theorem dictUpdate_append (d e1 e2 : Dict) :
    dictUpdate d (e1 ++ e2) = dictUpdate (dictUpdate d e1) e2 :=
  List.foldl_append _ _ _ _

theorem detailsDict_map_fst (u t : String) (pg : DetailPage) :
    (detailsDict u t pg).map Prod.fst =
      ["url", "committees", "actions", "cosponsors", "last_action_date",
       "introduced_date", "scraped_at"] := rfl

theorem detailsDict_key_ne (u t : String) (pg : DetailPage) (k : String)
    (hk : k ∉ (["url", "committees", "actions", "cosponsors", "last_action_date",
      "introduced_date", "scraped_at"] : List String)) :
    ∀ kv ∈ detailsDict u t pg, kv.1 ≠ k := by
  intro kv hkv heq
  apply hk
  rw [← detailsDict_map_fst u t pg, ← heq]
  exact List.mem_map_of_mem Prod.fst hkv

theorem dictUpdate_details_url (r : Dict) (u t : String) (pg : DetailPage) :
    (dictUpdate r (detailsDict u t pg)).lookup "url" = some (.pstr u) := by
  rw [show detailsDict u t pg = ("url", PyVal.pstr u) ::
    [("committees", .plist ((extract_committees pg).map .pstr)),
     ("actions", .plist ((extract_actions pg).map (fun p =>
        .pdict [("date", .pstr p.1), ("action", .pstr p.2)]))),
     ("cosponsors", .plist ((extract_cosponsors pg).map .pstr)),
     ("last_action_date", optVal (extract_last_action_date pg)),
     ("introduced_date", optVal (extract_introduced_date pg)),
     ("scraped_at", .pstr t)] from rfl]
  rw [show dictUpdate r (("url", PyVal.pstr u) ::
    [("committees", .plist ((extract_committees pg).map .pstr)),
     ("actions", .plist ((extract_actions pg).map (fun p =>
        .pdict [("date", .pstr p.1), ("action", .pstr p.2)]))),
     ("cosponsors", .plist ((extract_cosponsors pg).map .pstr)),
     ("last_action_date", optVal (extract_last_action_date pg)),
     ("introduced_date", optVal (extract_introduced_date pg)),
     ("scraped_at", .pstr t)]) =
    dictUpdate (dictSet r "url" (PyVal.pstr u))
    [("committees", .plist ((extract_committees pg).map .pstr)),
     ("actions", .plist ((extract_actions pg).map (fun p =>
        .pdict [("date", .pstr p.1), ("action", .pstr p.2)]))),
     ("cosponsors", .plist ((extract_cosponsors pg).map .pstr)),
     ("last_action_date", optVal (extract_last_action_date pg)),
     ("introduced_date", optVal (extract_introduced_date pg)),
     ("scraped_at", .pstr t)] from rfl]
  rw [dictUpdate_lookup_ne]
  · exact dictSet_lookup_eq r "url" (.pstr u)
  · intro kv hkv
    simp only [List.mem_cons, List.not_mem_nil, or_false] at hkv
    rcases hkv with rfl | rfl | rfl | rfl | rfl | rfl <;> simp

theorem dictUpdate_details_scraped_at (r : Dict) (u t : String) (pg : DetailPage) :
    (dictUpdate r (detailsDict u t pg)).lookup "scraped_at" = some (.pstr t) := by
  rw [show detailsDict u t pg =
    [("url", PyVal.pstr u),
     ("committees", .plist ((extract_committees pg).map .pstr)),
     ("actions", .plist ((extract_actions pg).map (fun p =>
        .pdict [("date", .pstr p.1), ("action", .pstr p.2)]))),
     ("cosponsors", .plist ((extract_cosponsors pg).map .pstr)),
     ("last_action_date", optVal (extract_last_action_date pg)),
     ("introduced_date", optVal (extract_introduced_date pg))] ++
    [("scraped_at", PyVal.pstr t)] from rfl]
  rw [dictUpdate_append]
  exact dictSet_lookup_eq _ "scraped_at" (.pstr t)

/-- C8: the detail-enrichment merge preserves the original search-result
fields `bill_number`, `title`, `status` and `sponsor` of every parsed
record, for every enrichment mapping `scrape_item` can return. -/
theorem merge_preserves_search_fields (now : String) (page : SearchPage) (r : Dict)
    (_hr : r ∈ parse_search_results now page) (env : Env) (u : String) (e : Dict)
    (he : scrape_item env u = .ok e) :
    (dictUpdate r e).lookup "bill_number" = r.lookup "bill_number" ∧
    (dictUpdate r e).lookup "title" = r.lookup "title" ∧
    (dictUpdate r e).lookup "status" = r.lookup "status" ∧
    (dictUpdate r e).lookup "sponsor" = r.lookup "sponsor" := by
  unfold scrape_item at he
  cases hd : env.detail u <;> rw [hd] at he
  · rename_i pg
    simp only [Except.ok.injEq] at he
    subst he
    refine ⟨?_, ?_, ?_, ?_⟩ <;>
      exact dictUpdate_lookup_ne _ _ _ (detailsDict_key_ne _ _ _ _ (by decide))
  · simp only [Except.ok.injEq] at he
    subst he
    exact ⟨rfl, rfl, rfl, rfl⟩
  · cases he


/-- Witness for `merge_preserves_search_fields`: one parsed record merged
with the empty enrichment of a failed detail fetch. -/
theorem merge_preserves_search_fields_w :
    (dictUpdate [("bill_number", PyVal.pstr (pyStrip "HR1")),
      ("title", PyVal.pstr "No title available"),
      ("status", PyVal.pstr "Status unknown"),
      ("sponsor", PyVal.pstr "No sponsor info"),
      ("url", PyVal.pstr "https://www.congress.gov/x"),
      ("scraped_at", PyVal.pstr "T")] []).lookup "bill_number" = ([("bill_number", PyVal.pstr (pyStrip "HR1")),
      ("title", PyVal.pstr "No title available"),
      ("status", PyVal.pstr "Status unknown"),
      ("sponsor", PyVal.pstr "No sponsor info"),
      ("url", PyVal.pstr "https://www.congress.gov/x"),
      ("scraped_at", PyVal.pstr "T")] : Dict).lookup "bill_number" ∧
    (dictUpdate [("bill_number", PyVal.pstr (pyStrip "HR1")),
      ("title", PyVal.pstr "No title available"),
      ("status", PyVal.pstr "Status unknown"),
      ("sponsor", PyVal.pstr "No sponsor info"),
      ("url", PyVal.pstr "https://www.congress.gov/x"),
      ("scraped_at", PyVal.pstr "T")] []).lookup "title" = ([("bill_number", PyVal.pstr (pyStrip "HR1")),
      ("title", PyVal.pstr "No title available"),
      ("status", PyVal.pstr "Status unknown"),
      ("sponsor", PyVal.pstr "No sponsor info"),
      ("url", PyVal.pstr "https://www.congress.gov/x"),
      ("scraped_at", PyVal.pstr "T")] : Dict).lookup "title" ∧
    (dictUpdate [("bill_number", PyVal.pstr (pyStrip "HR1")),
      ("title", PyVal.pstr "No title available"),
      ("status", PyVal.pstr "Status unknown"),
      ("sponsor", PyVal.pstr "No sponsor info"),
      ("url", PyVal.pstr "https://www.congress.gov/x"),
      ("scraped_at", PyVal.pstr "T")] []).lookup "status" = ([("bill_number", PyVal.pstr (pyStrip "HR1")),
      ("title", PyVal.pstr "No title available"),
      ("status", PyVal.pstr "Status unknown"),
      ("sponsor", PyVal.pstr "No sponsor info"),
      ("url", PyVal.pstr "https://www.congress.gov/x"),
      ("scraped_at", PyVal.pstr "T")] : Dict).lookup "status" ∧
    (dictUpdate [("bill_number", PyVal.pstr (pyStrip "HR1")),
      ("title", PyVal.pstr "No title available"),
      ("status", PyVal.pstr "Status unknown"),
      ("sponsor", PyVal.pstr "No sponsor info"),
      ("url", PyVal.pstr "https://www.congress.gov/x"),
      ("scraped_at", PyVal.pstr "T")] []).lookup "sponsor" = ([("bill_number", PyVal.pstr (pyStrip "HR1")),
      ("title", PyVal.pstr "No title available"),
      ("status", PyVal.pstr "Status unknown"),
      ("sponsor", PyVal.pstr "No sponsor info"),
      ("url", PyVal.pstr "https://www.congress.gov/x"),
      ("scraped_at", PyVal.pstr "T")] : Dict).lookup "sponsor" :=
  merge_preserves_search_fields "T"
    [⟨some ⟨some ⟨"HR1", some "/x"⟩⟩, none, none, none⟩] [("bill_number", PyVal.pstr (pyStrip "HR1")),
      ("title", PyVal.pstr "No title available"),
      ("status", PyVal.pstr "Status unknown"),
      ("sponsor", PyVal.pstr "No sponsor info"),
      ("url", PyVal.pstr "https://www.congress.gov/x"),
      ("scraped_at", PyVal.pstr "T")]
    (List.mem_singleton.mpr rfl)
    ⟨fun _ => .ok [], fun _ => .err, "T", fun _ => "T2"⟩ "u0" [] rfl

/-- C10: the detail-enrichment merge overwrites the record's `url` and
`scraped_at` keys with the detail enrichment's values — the final
`scraped_at` is the detail-scrape timestamp, while the record's own
`scraped_at` was the search-scrape timestamp — and a failed detail scrape
yields the empty mapping, so the record is appended unchanged with only
its original search fields. -/
theorem merge_detail_overwrites (now : String) (page : SearchPage)
    (r : Dict) (hr : r ∈ parse_search_results now page) (env : Env) :
    r.lookup "scraped_at" = some (.pstr now) ∧
    (∀ pg, env.detail (getStr r "url") = .ok pg →
      scrape_item env (getStr r "url") =
        .ok (detailsDict (getStr r "url") (env.detailNow (getStr r "url")) pg) ∧
      (dictUpdate r (detailsDict (getStr r "url")
          (env.detailNow (getStr r "url")) pg)).lookup "url" =
        some (.pstr (getStr r "url")) ∧
      (dictUpdate r (detailsDict (getStr r "url")
          (env.detailNow (getStr r "url")) pg)).lookup "scraped_at" =
        some (.pstr (env.detailNow (getStr r "url")))) ∧
    (env.detail (getStr r "url") = .err →
      scrape_item env (getStr r "url") = .ok [] ∧ dictUpdate r [] = r ∧
      ∀ rest, detailLoop env (r :: rest) =
        (detailLoop env rest).map (fun t => r :: t)) := by
  refine ⟨?_, ?_, ?_⟩
  · rcases List.mem_filterMap.mp hr with ⟨item, hitem, hpi⟩
    cases h1 : item.titleElem with
    | none =>
      rw [parseItem_none now (Or.inl h1)] at hpi
      cases hpi
    | some te =>
      cases h2 : te.link with
      | none =>
        rw [parseItem_none now (Or.inr (Or.inl ⟨te, h1, h2⟩))] at hpi
        cases hpi
      | some l =>
        cases h3 : l.href with
        | none =>
          rw [parseItem_none now (Or.inr (Or.inr ⟨te, l, h1, h2, h3⟩))] at hpi
          cases hpi
        | some href =>
          rw [parseItem_some now item te l href h1 h2 h3] at hpi
          simp only [Option.some.injEq] at hpi
          subst hpi
          simp [List.lookup]
  · intro pg hd
    refine ⟨by simp [scrape_item, hd], dictUpdate_details_url r _ _ pg,
      dictUpdate_details_scraped_at r _ _ pg⟩
  · intro hd
    have hsi : scrape_item env (getStr r "url") = .ok [] := by simp [scrape_item, hd]
    refine ⟨hsi, rfl, ?_⟩
    intro rest
    cases hdl : detailLoop env rest with
    | ok tail =>
      simp [detailLoop, hsi, hdl, dictUpdate, Except.map, Except.instMonad,
        Bind.bind, Except.bind]
    | error e =>
      simp [detailLoop, hsi, hdl, Except.map, Except.instMonad,
        Bind.bind, Except.bind]

/-- Witness for `merge_detail_overwrites` at one concrete parsed record
and an environment whose detail fetches fail. -/
theorem merge_detail_overwrites_w :
    ([("bill_number", PyVal.pstr (pyStrip "HR1")),
      ("title", PyVal.pstr "No title available"),
      ("status", PyVal.pstr "Status unknown"),
      ("sponsor", PyVal.pstr "No sponsor info"),
      ("url", PyVal.pstr "https://www.congress.gov/x"),
      ("scraped_at", PyVal.pstr "T")] : Dict).lookup "scraped_at" = some (.pstr "T") ∧
    (∀ pg, (⟨fun _ => .ok [], fun _ => .err, "T", fun _ => "T2"⟩ :
        Env).detail (getStr [("bill_number", PyVal.pstr (pyStrip "HR1")),
      ("title", PyVal.pstr "No title available"),
      ("status", PyVal.pstr "Status unknown"),
      ("sponsor", PyVal.pstr "No sponsor info"),
      ("url", PyVal.pstr "https://www.congress.gov/x"),
      ("scraped_at", PyVal.pstr "T")] "url") = .ok pg →
      scrape_item ⟨fun _ => .ok [], fun _ => .err, "T", fun _ => "T2"⟩
          (getStr [("bill_number", PyVal.pstr (pyStrip "HR1")),
      ("title", PyVal.pstr "No title available"),
      ("status", PyVal.pstr "Status unknown"),
      ("sponsor", PyVal.pstr "No sponsor info"),
      ("url", PyVal.pstr "https://www.congress.gov/x"),
      ("scraped_at", PyVal.pstr "T")] "url") =
        .ok (detailsDict (getStr [("bill_number", PyVal.pstr (pyStrip "HR1")),
      ("title", PyVal.pstr "No title available"),
      ("status", PyVal.pstr "Status unknown"),
      ("sponsor", PyVal.pstr "No sponsor info"),
      ("url", PyVal.pstr "https://www.congress.gov/x"),
      ("scraped_at", PyVal.pstr "T")] "url")
          ((⟨fun _ => .ok [], fun _ => .err, "T", fun _ => "T2"⟩ :
            Env).detailNow (getStr [("bill_number", PyVal.pstr (pyStrip "HR1")),
      ("title", PyVal.pstr "No title available"),
      ("status", PyVal.pstr "Status unknown"),
      ("sponsor", PyVal.pstr "No sponsor info"),
      ("url", PyVal.pstr "https://www.congress.gov/x"),
      ("scraped_at", PyVal.pstr "T")] "url")) pg) ∧
      (dictUpdate [("bill_number", PyVal.pstr (pyStrip "HR1")),
      ("title", PyVal.pstr "No title available"),
      ("status", PyVal.pstr "Status unknown"),
      ("sponsor", PyVal.pstr "No sponsor info"),
      ("url", PyVal.pstr "https://www.congress.gov/x"),
      ("scraped_at", PyVal.pstr "T")] (detailsDict (getStr [("bill_number", PyVal.pstr (pyStrip "HR1")),
      ("title", PyVal.pstr "No title available"),
      ("status", PyVal.pstr "Status unknown"),
      ("sponsor", PyVal.pstr "No sponsor info"),
      ("url", PyVal.pstr "https://www.congress.gov/x"),
      ("scraped_at", PyVal.pstr "T")] "url")
          ((⟨fun _ => .ok [], fun _ => .err, "T", fun _ => "T2"⟩ :
            Env).detailNow (getStr [("bill_number", PyVal.pstr (pyStrip "HR1")),
      ("title", PyVal.pstr "No title available"),
      ("status", PyVal.pstr "Status unknown"),
      ("sponsor", PyVal.pstr "No sponsor info"),
      ("url", PyVal.pstr "https://www.congress.gov/x"),
      ("scraped_at", PyVal.pstr "T")] "url")) pg)).lookup "url" =
        some (.pstr (getStr [("bill_number", PyVal.pstr (pyStrip "HR1")),
      ("title", PyVal.pstr "No title available"),
      ("status", PyVal.pstr "Status unknown"),
      ("sponsor", PyVal.pstr "No sponsor info"),
      ("url", PyVal.pstr "https://www.congress.gov/x"),
      ("scraped_at", PyVal.pstr "T")] "url")) ∧
      (dictUpdate [("bill_number", PyVal.pstr (pyStrip "HR1")),
      ("title", PyVal.pstr "No title available"),
      ("status", PyVal.pstr "Status unknown"),
      ("sponsor", PyVal.pstr "No sponsor info"),
      ("url", PyVal.pstr "https://www.congress.gov/x"),
      ("scraped_at", PyVal.pstr "T")] (detailsDict (getStr [("bill_number", PyVal.pstr (pyStrip "HR1")),
      ("title", PyVal.pstr "No title available"),
      ("status", PyVal.pstr "Status unknown"),
      ("sponsor", PyVal.pstr "No sponsor info"),
      ("url", PyVal.pstr "https://www.congress.gov/x"),
      ("scraped_at", PyVal.pstr "T")] "url")
          ((⟨fun _ => .ok [], fun _ => .err, "T", fun _ => "T2"⟩ :
            Env).detailNow (getStr [("bill_number", PyVal.pstr (pyStrip "HR1")),
      ("title", PyVal.pstr "No title available"),
      ("status", PyVal.pstr "Status unknown"),
      ("sponsor", PyVal.pstr "No sponsor info"),
      ("url", PyVal.pstr "https://www.congress.gov/x"),
      ("scraped_at", PyVal.pstr "T")] "url")) pg)).lookup "scraped_at" =
        some (.pstr ((⟨fun _ => .ok [], fun _ => .err, "T", fun _ => "T2"⟩ :
          Env).detailNow (getStr [("bill_number", PyVal.pstr (pyStrip "HR1")),
      ("title", PyVal.pstr "No title available"),
      ("status", PyVal.pstr "Status unknown"),
      ("sponsor", PyVal.pstr "No sponsor info"),
      ("url", PyVal.pstr "https://www.congress.gov/x"),
      ("scraped_at", PyVal.pstr "T")] "url")))) ∧
    ((⟨fun _ => .ok [], fun _ => .err, "T", fun _ => "T2"⟩ :
        Env).detail (getStr [("bill_number", PyVal.pstr (pyStrip "HR1")),
      ("title", PyVal.pstr "No title available"),
      ("status", PyVal.pstr "Status unknown"),
      ("sponsor", PyVal.pstr "No sponsor info"),
      ("url", PyVal.pstr "https://www.congress.gov/x"),
      ("scraped_at", PyVal.pstr "T")] "url") = .err →
      scrape_item ⟨fun _ => .ok [], fun _ => .err, "T", fun _ => "T2"⟩
          (getStr [("bill_number", PyVal.pstr (pyStrip "HR1")),
      ("title", PyVal.pstr "No title available"),
      ("status", PyVal.pstr "Status unknown"),
      ("sponsor", PyVal.pstr "No sponsor info"),
      ("url", PyVal.pstr "https://www.congress.gov/x"),
      ("scraped_at", PyVal.pstr "T")] "url") = .ok [] ∧
      dictUpdate [("bill_number", PyVal.pstr (pyStrip "HR1")),
      ("title", PyVal.pstr "No title available"),
      ("status", PyVal.pstr "Status unknown"),
      ("sponsor", PyVal.pstr "No sponsor info"),
      ("url", PyVal.pstr "https://www.congress.gov/x"),
      ("scraped_at", PyVal.pstr "T")] [] = [("bill_number", PyVal.pstr (pyStrip "HR1")),
      ("title", PyVal.pstr "No title available"),
      ("status", PyVal.pstr "Status unknown"),
      ("sponsor", PyVal.pstr "No sponsor info"),
      ("url", PyVal.pstr "https://www.congress.gov/x"),
      ("scraped_at", PyVal.pstr "T")] ∧
      ∀ rest, detailLoop ⟨fun _ => .ok [], fun _ => .err, "T", fun _ => "T2"⟩
          ([("bill_number", PyVal.pstr (pyStrip "HR1")),
      ("title", PyVal.pstr "No title available"),
      ("status", PyVal.pstr "Status unknown"),
      ("sponsor", PyVal.pstr "No sponsor info"),
      ("url", PyVal.pstr "https://www.congress.gov/x"),
      ("scraped_at", PyVal.pstr "T")] :: rest) =
        (detailLoop ⟨fun _ => .ok [], fun _ => .err, "T", fun _ => "T2"⟩
          rest).map (fun t => [("bill_number", PyVal.pstr (pyStrip "HR1")),
      ("title", PyVal.pstr "No title available"),
      ("status", PyVal.pstr "Status unknown"),
      ("sponsor", PyVal.pstr "No sponsor info"),
      ("url", PyVal.pstr "https://www.congress.gov/x"),
      ("scraped_at", PyVal.pstr "T")] :: t)) :=
  merge_detail_overwrites "T"
    [⟨some ⟨some ⟨"HR1", some "/x"⟩⟩, none, none, none⟩] [("bill_number", PyVal.pstr (pyStrip "HR1")),
      ("title", PyVal.pstr "No title available"),
      ("status", PyVal.pstr "Status unknown"),
      ("sponsor", PyVal.pstr "No sponsor info"),
      ("url", PyVal.pstr "https://www.congress.gov/x"),
      ("scraped_at", PyVal.pstr "T")]
    (List.mem_singleton.mpr rfl)
    ⟨fun _ => .ok [], fun _ => .err, "T", fun _ => "T2"⟩


/-! ## Helper lemmas: error containment in the orchestrator -/

theorem detailLoop_no_cancel (env : Env) (hnd : ∀ u, env.detail u ≠ .cancelled) :
    ∀ items : List Dict, ∃ l, detailLoop env items = .ok l := by
  intro items
  induction items with
  | nil => exact ⟨[], rfl⟩
  | cons item rest ih =>
    obtain ⟨l, hl⟩ := ih
    cases hd : env.detail (getStr item "url") with
    | cancelled => exact absurd hd (hnd _)
    | err =>
      refine ⟨dictUpdate item [] :: l, ?_⟩
      simp [detailLoop, scrape_item, hd, hl, Except.instMonad, Bind.bind, Except.bind]
    | ok pg =>
      refine ⟨dictUpdate item (detailsDict (getStr item "url")
        (env.detailNow (getStr item "url")) pg) :: l, ?_⟩
      simp [detailLoop, scrape_item, hd, hl, Except.instMonad, Bind.bind, Except.bind]

theorem scrape_page_no_cancel (env : Env)
    (hnf : ∀ u, env.fetch u ≠ .cancelled) (hnd : ∀ u, env.detail u ≠ .cancelled) :
    ∀ job, ∃ items, scrape_page env job = .ok items := by
  intro job
  cases hf : env.fetch (build_search_url (.int job.congress) job.source job.page) with
  | cancelled => exact absurd hf (hnf _)
  | err => exact ⟨[], by simp [scrape_page, hf]⟩
  | ok pg =>
    cases hs : scraperFor job.source with
    | none => exact ⟨[], by simp [scrape_page, hf, hs]⟩
    | some u =>
      obtain ⟨l, hl⟩ := detailLoop_no_cancel env hnd
        (parse_search_results env.searchNow pg)
      exact ⟨l, by simp [scrape_page, hf, hs, hl]⟩

theorem drainLoop_no_error (env : Env)
    (hnf : ∀ u, env.fetch u ≠ .cancelled) (hnd : ∀ u, env.detail u ≠ .cancelled) :
    ∀ fuel q done acc, ∃ r, drainLoop env fuel q done acc = .ok r := by
  intro fuel
  induction fuel with
  | zero =>
    intro q done acc
    cases q with
    | nil => exact ⟨some (done, acc), rfl⟩
    | cons job q => exact ⟨none, rfl⟩
  | succ fuel ih =>
    intro q done acc
    cases q with
    | nil => exact ⟨some (done, acc), rfl⟩
    | cons job q =>
      obtain ⟨items, hitems⟩ := scrape_page_no_cancel env hnf hnd job
      obtain ⟨r, hr⟩ := ih
        (if items.isEmpty then q
         else q ++ [{ congress := job.congress, source := job.source,
                      page := job.page + 1 }]) (done ++ [job]) (acc ++ items)
      exact ⟨r, by rw [drainLoop, hitems]; exact hr⟩

/-- C5: every per-job failure is contained — a job whose fetch raises a
catchable exception, or whose source tag has no registry entry, yields the
empty result list; such a job enqueues no continuation and the rest of
the queue is still processed; and when no uncatchable exception occurs,
no job errs, the drain loop never propagates an exception, and `scrape`
returns normally with the accumulated records. -/
theorem per_job_failures_contained (env : Env)
    (hnf : ∀ u, env.fetch u ≠ .cancelled) (hnd : ∀ u, env.detail u ≠ .cancelled) :
    (∀ job, env.fetch (build_search_url (.int job.congress) job.source job.page) =
        .err → scrape_page env job = .ok []) ∧
    (∀ job, scraperFor job.source = none → scrape_page env job = .ok []) ∧
    (∀ job, ∃ items, scrape_page env job = .ok items) ∧
    (∀ fuel job q done acc, scrape_page env job = .ok [] →
      drainLoop env (fuel + 1) (job :: q) done acc =
        drainLoop env fuel q (done ++ [job]) acc) ∧
    (∀ fuel q done acc, ∃ r, drainLoop env fuel q done acc = .ok r) ∧
    (∀ fuel s e srcs, ∃ o, (scrape env fuel s e srcs).result = .ok o) := by
  refine ⟨?_, ?_, scrape_page_no_cancel env hnf hnd, ?_, drainLoop_no_error env hnf hnd, ?_⟩
  · intro job hf
    simp [scrape_page, hf]
  · intro job hs
    cases hf : env.fetch (build_search_url (.int job.congress) job.source job.page) with
    | cancelled => exact absurd hf (hnf _)
    | err => simp [scrape_page, hf]
    | ok pg => simp [scrape_page, hf, hs]
  · intro fuel job q done acc hempty
    rw [drainLoop, hempty]
    simp
  · intro fuel s e srcs
    obtain ⟨r, hr⟩ := drainLoop_no_error env hnf hnd fuel (initialJobs s e srcs) [] []
    cases r with
    | none => exact ⟨none, by simp [scrape, hr]⟩
    | some pr => exact ⟨some pr.2, by simp [scrape, hr]⟩

/-- Witness for `per_job_failures_contained`: an environment in which
every fetch raises a catchable network error. -/
theorem per_job_failures_contained_w :
    ∃ o, (scrape (⟨fun _ => .err, fun _ => .err, "T", fun _ => "T"⟩ : Env)
      3 119 115 ["legislation"]).result = .ok o :=
  (per_job_failures_contained ⟨fun _ => .err, fun _ => .err, "T", fun _ => "T"⟩
    (fun _ h => FetchOutcome.noConfusion h)
    (fun _ h => DetailOutcome.noConfusion h)).2.2.2.2.2 3 119 115 ["legislation"]


theorem drainLoop_forever (env : Env) (c : Int) (s : String)
    (h : ∀ p : Int, 1 ≤ p → ∃ its, scrape_page env ⟨c, s, p⟩ = .ok its ∧ its ≠ []) :
    ∀ fuel (p : Int), 1 ≤ p → ∀ done acc,
      drainLoop env fuel [⟨c, s, p⟩] done acc = .ok none := by
  intro fuel
  induction fuel with
  | zero =>
    intro p hp done acc
    rfl
  | succ f ih =>
    intro p hp done acc
    obtain ⟨its, hits, hne⟩ := h p hp
    have hie : its.isEmpty = false := by
      cases its with
      | nil => exact absurd rfl hne
      | cons a l => rfl
    rw [drainLoop]
    simp only [hits, hie, Bool.false_eq_true, if_false, List.nil_append]
    exact ih (p + 1) (by omega) _ _

theorem drain_single_pagination (env : Env) (c : Int) (s : String) :
    ∀ (m : Nat) (startp : Int) (done : List ScrapingJob) (acc : List Dict),
      (∀ i : Nat, i < m →
        ∃ its, scrape_page env ⟨c, s, startp + (i : Int)⟩ = .ok its ∧ its ≠ []) →
      scrape_page env ⟨c, s, startp + (m : Int)⟩ = .ok [] →
      ∀ fuel, m + 1 ≤ fuel →
        drainLoop env fuel [⟨c, s, startp⟩] done acc =
          .ok (some (done ++ (List.range (m + 1)).map
              (fun i => ⟨c, s, startp + (i : Int)⟩),
            acc ++ (List.range (m + 1)).flatMap
              (fun i => pageItems env c s (startp + (i : Int))))) := by
  intro m
  induction m with
  | zero =>
    intro startp done acc hne hemp fuel hfuel
    obtain ⟨f, rfl⟩ : ∃ f, fuel = f + 1 := ⟨fuel - 1, by omega⟩
    have h0 : scrape_page env ⟨c, s, startp⟩ = .ok [] := by
      simpa using hemp
    rw [drainLoop]
    simp [drainLoop, h0, pageItems, show List.range 1 = [0] from rfl]
  | succ m ih =>
    intro startp done acc hne hemp fuel hfuel
    obtain ⟨f, rfl⟩ : ∃ f, fuel = f + 1 := ⟨fuel - 1, by omega⟩
    obtain ⟨its, hits, hne0⟩ := hne 0 (by omega)
    have hits1 : scrape_page env ⟨c, s, startp⟩ = .ok its := by
      simpa using hits
    have hie : its.isEmpty = false := by
      cases its with
      | nil => exact absurd rfl hne0
      | cons a l => rfl
    rw [drainLoop]
    simp only [hits1, hie, Bool.false_eq_true, if_false, List.nil_append]
    have hne2 : ∀ i : Nat, i < m →
        ∃ its2, scrape_page env ⟨c, s, (startp + 1) + (i : Int)⟩ = .ok its2 ∧
          its2 ≠ [] := by
      intro i hi
      obtain ⟨its2, h2, h3⟩ := hne (i + 1) (by omega)
      have hcast : startp + ((i + 1 : Nat) : Int) = (startp + 1) + (i : Int) := by
        push_cast
        ring
      rw [hcast] at h2
      exact ⟨its2, h2, h3⟩
    have hemp2 : scrape_page env ⟨c, s, (startp + 1) + (m : Int)⟩ = .ok [] := by
      have hcast : startp + ((m + 1 : Nat) : Int) = (startp + 1) + (m : Int) := by
        push_cast
        ring
      rw [hcast] at hemp
      exact hemp
    have IH := ih (startp + 1) (done ++ [(⟨c, s, startp⟩ : ScrapingJob)])
      (acc ++ its) hne2 hemp2 f (by omega)
    rw [IH]
    have hhead : (⟨c, s, startp⟩ : ScrapingJob) = ⟨c, s, startp + ((0 : Nat) : Int)⟩ := by
      simp
    have hfun : ((fun (i : Nat) => (⟨c, s, startp + (i : Int)⟩ : ScrapingJob)) ∘
        Nat.succ) = (fun (i : Nat) => ⟨c, s, (startp + 1) + (i : Int)⟩) := by
      funext i
      simp only [Function.comp_apply]
      congr 1
      push_cast
      ring
    have hjobs : done ++ (List.range (m + 1 + 1)).map
          (fun (i : Nat) => (⟨c, s, startp + (i : Int)⟩ : ScrapingJob)) =
        (done ++ [(⟨c, s, startp⟩ : ScrapingJob)]) ++ (List.range (m + 1)).map
          (fun (i : Nat) => (⟨c, s, (startp + 1) + (i : Int)⟩ : ScrapingJob)) := by
      rw [List.range_succ_eq_map (m + 1), List.map_cons, List.map_map, hfun,
          List.append_assoc, List.singleton_append, ← hhead]
    have hfun2 : (fun (a : Nat) => pageItems env c s (startp + ((Nat.succ a : Nat) : Int))) =
        (fun (i : Nat) => pageItems env c s ((startp + 1) + (i : Int))) := by
      funext i
      congr 1
      push_cast
      ring
    have hpi : pageItems env c s (startp + ((0 : Nat) : Int)) = its := by
      simp [pageItems, hits1]
    have hacc : acc ++ (List.range (m + 1 + 1)).flatMap
          (fun (i : Nat) => pageItems env c s (startp + (i : Int))) =
        (acc ++ its) ++ (List.range (m + 1)).flatMap
          (fun (i : Nat) => pageItems env c s ((startp + 1) + (i : Int))) := by
      rw [List.range_succ_eq_map (m + 1), List.flatMap_cons, hpi,
          List.flatMap_map, hfun2, List.append_assoc]
    rw [hjobs, hacc]


/-- C1: starting the (congress, source) pagination sequence at page 1,
processing continues with a continuation job for the same pair at
`page = current_page + 1` exactly as long as pages produce non-empty
result lists — the processed-job trace is exactly pages `1 .. m+1` and
the drain terminates right after the first empty page, which is the sole
termination signal: if no page ever comes back empty, the drain never
terminates for any amount of fuel. -/
theorem pagination_continuation (env : Env) (c : Int) (s : String) :
    (∀ (m : Nat) (done : List ScrapingJob) (acc : List Dict),
      (∀ i : Nat, i < m →
        ∃ its, scrape_page env ⟨c, s, 1 + (i : Int)⟩ = .ok its ∧ its ≠ []) →
      scrape_page env ⟨c, s, 1 + (m : Int)⟩ = .ok [] →
      ∀ fuel, m + 1 ≤ fuel →
        drainLoop env fuel [⟨c, s, 1⟩] done acc =
          .ok (some (done ++ (List.range (m + 1)).map
              (fun i => ⟨c, s, 1 + (i : Int)⟩),
            acc ++ (List.range (m + 1)).flatMap
              (fun i => pageItems env c s (1 + (i : Int)))))) ∧
    ((∀ p : Int, 1 ≤ p → ∃ its, scrape_page env ⟨c, s, p⟩ = .ok its ∧ its ≠ []) →
      ∀ fuel done acc, drainLoop env fuel [⟨c, s, 1⟩] done acc = .ok none) :=
  ⟨fun m done acc => drain_single_pagination env c s m 1 done acc,
   fun h fuel done acc => drainLoop_forever env c s h fuel 1 (by omega) done acc⟩

/-- Witness for `pagination_continuation`: an environment whose page-1
search returns one listing item and whose page-2 search returns none, so
exactly pages 1 and 2 are processed and one record accumulates. -/
theorem pagination_continuation_w :
    drainLoop
      (⟨fun u => if u = build_search_url (.int 0) "legislation" 1 then
          .ok [⟨some ⟨some ⟨"HR1", some "/x"⟩⟩, none, none, none⟩] else .ok [],
        fun _ => .err, "T", fun _ => "T2"⟩ : Env)
      2 [⟨0, "legislation", 1⟩] [] [] =
    .ok (some ([] ++ (List.range 2).map
        (fun i => ⟨0, "legislation", 1 + (i : Int)⟩),
      [] ++ (List.range 2).flatMap
        (fun i => pageItems
          (⟨fun u => if u = build_search_url (.int 0) "legislation" 1 then
              .ok [⟨some ⟨some ⟨"HR1", some "/x"⟩⟩, none, none, none⟩] else .ok [],
            fun _ => .err, "T", fun _ => "T2"⟩ : Env)
          0 "legislation" (1 + (i : Int))))) :=
  (pagination_continuation
    ⟨fun u => if u = build_search_url (.int 0) "legislation" 1 then
        .ok [⟨some ⟨some ⟨"HR1", some "/x"⟩⟩, none, none, none⟩] else .ok [],
      fun _ => .err, "T", fun _ => "T2"⟩ 0 "legislation").1 1 [] []
    (by
      intro i hi
      have h0 : i = 0 := by omega
      subst h0
      exact ⟨[[("bill_number", PyVal.pstr (pyStrip "HR1")),
        ("title", PyVal.pstr "No title available"),
        ("status", PyVal.pstr "Status unknown"),
        ("sponsor", PyVal.pstr "No sponsor info"),
        ("url", PyVal.pstr "https://www.congress.gov/x"),
        ("scraped_at", PyVal.pstr "T")]], by rfl, List.cons_ne_nil _ _⟩)
    (by rfl) 2 (by omega)

/-! ## C7: the initial job queue -/

theorem mem_rangeDown {a b x : Int} : x ∈ rangeDown a b ↔ b < x ∧ x ≤ a := by
  unfold rangeDown
  simp only [List.mem_map, List.mem_range]
  constructor
  · rintro ⟨i, hi, rfl⟩
    omega
  · rintro ⟨h1, h2⟩
    exact ⟨(a - x).toNat, by omega, by omega⟩

theorem nodup_rangeDown (a b : Int) : (rangeDown a b).Nodup := by
  unfold rangeDown
  refine (List.nodup_range _).map ?_
  intro i j h
  simp only [] at h
  omega

theorem mem_initialJobs {start end_ : Int} {sources : List String}
    {c : Int} {s : String} {p : Int} :
    (⟨c, s, p⟩ : ScrapingJob) ∈ initialJobs start end_ sources ↔
      (end_ ≤ c ∧ c ≤ start ∧ s ∈ sources ∧ p = 1) := by
  unfold initialJobs
  simp only [List.mem_flatMap, List.mem_map]
  constructor
  · rintro ⟨c2, hc2, s2, hs2, heq⟩
    injection heq with hc hs hp
    subst hc hs hp
    have := mem_rangeDown.mp hc2
    exact ⟨by omega, by omega, hs2, rfl⟩
  · rintro ⟨h1, h2, h3, rfl⟩
    exact ⟨c, mem_rangeDown.mpr ⟨by omega, h2⟩, s, h3, rfl⟩

theorem nodup_initialJobs (start end_ : Int) (sources : List String)
    (hnd : sources.Nodup) : (initialJobs start end_ sources).Nodup := by
  unfold initialJobs
  rw [List.nodup_flatMap]
  constructor
  · intro c hc
    refine hnd.map ?_
    intro s1 s2 h
    injection h
  · refine (nodup_rangeDown _ _).imp ?_
    intro c1 c2 hne
    intro x h1 h2
    rcases List.mem_map.mp h1 with ⟨s1, hs1, rfl⟩
    rcases List.mem_map.mp h2 with ⟨s2, hs2, heq⟩
    injection heq with hc hs hp
    exact hne hc.symm

/-- C7: for every start congress, end congress and (duplicate-free) source
list, the initial job queue contains exactly one `ScrapingJob (c, s, 1)`
for each congress `c` from `start_congress` down to `end_congress`
inclusive crossed with each source `s` (membership characterisation plus
`Nodup`); no initial job has a page other than 1; and when
`start_congress < end_congress` the initial queue is empty and `scrape`
returns the empty accumulator. -/
theorem initial_jobs_exactly (start_congress end_congress : Int)
    (sources : List String) (hnd : sources.Nodup) :
    (∀ c s p, (⟨c, s, p⟩ : ScrapingJob) ∈
        initialJobs start_congress end_congress sources ↔
      (end_congress ≤ c ∧ c ≤ start_congress ∧ s ∈ sources ∧ p = 1)) ∧
    (initialJobs start_congress end_congress sources).Nodup ∧
    (∀ j ∈ initialJobs start_congress end_congress sources, j.page = 1) ∧
    (start_congress < end_congress →
      initialJobs start_congress end_congress sources = [] ∧
      ∀ env fuel, (scrape env fuel start_congress end_congress sources).result =
        .ok (some [])) := by
  refine ⟨fun c s p => mem_initialJobs, nodup_initialJobs _ _ _ hnd, ?_, ?_⟩
  · intro j hj
    obtain ⟨c, s, p⟩ := j
    exact (mem_initialJobs.mp hj).2.2.2
  · intro hlt
    have hempty : initialJobs start_congress end_congress sources = [] := by
      unfold initialJobs rangeDown
      rw [show (start_congress - (end_congress - 1)).toNat = 0 from by omega]
      rfl
    exact ⟨hempty, fun env fuel => by simp [scrape, hempty, drainLoop]⟩

/-- Witness for C7: the sole source list `["legislation"]` is
duplicate-free, and the queue for congresses 119 down to 115 contains the
page-1 job for congress 119. -/
theorem initial_jobs_exactly_witness :
    (["legislation"] : List String).Nodup ∧
    ((⟨119, "legislation", 1⟩ : ScrapingJob) ∈
        initialJobs 119 115 ["legislation"] ↔
      ((115 : Int) ≤ 119 ∧ (119 : Int) ≤ 119 ∧
        "legislation" ∈ (["legislation"] : List String) ∧ (1 : Int) = 1)) :=
  ⟨by simp,
    (initial_jobs_exactly 119 115 ["legislation"] (by simp)).1 119
      "legislation" 1⟩

/-! ## C6: session lifecycle -/

/-- C6 (counterexample): a run whose first fetch raises an uncatchable
exception ends in an error, and its session-event trace has no `close`
event — the session is NOT closed on the exceptional exit path, because
`scrape` calls `close` manually after the loop instead of using scoped
acquisition/release. -/
theorem session_not_closed_on_error :
    (scrape ⟨fun _ => FetchOutcome.cancelled, fun _ => DetailOutcome.cancelled,
        "", fun _ => ""⟩ 1 119 119 ["legislation"]).result = .error () ∧
    SessionEvent.close ∉
      (scrape ⟨fun _ => FetchOutcome.cancelled, fun _ => DetailOutcome.cancelled,
        "", fun _ => ""⟩ 1 119 119 ["legislation"]).sessionEvents := by
  constructor
  · rfl
  · decide

/-- C6 (amended): the session is opened exactly once before the queue is
drained (it is the first session event and the only `open_` event), and it
is closed exactly on the normal-completion exit path: the trace contains
`close` iff the drain loop returned normally with an accumulator.  When an
exception propagates out of the loop, or the loop never finishes, the
manual `close` after the loop is skipped. -/
theorem session_lifecycle (env : Env) (fuel : Nat) (s e : Int)
    (srcs : List String) :
    (scrape env fuel s e srcs).sessionEvents.head? = some .open_ ∧
    (scrape env fuel s e srcs).sessionEvents.count .open_ = 1 ∧
    (SessionEvent.close ∈ (scrape env fuel s e srcs).sessionEvents ↔
      ∃ acc, (scrape env fuel s e srcs).result = .ok (some acc)) := by
  unfold scrape
  cases hd : drainLoop env fuel (initialJobs s e srcs) [] [] with
  | ok o =>
    cases o with
    | none => simp
    | some pr => simp
  | error err => simp

end Congress
